import Mathlib

/-!
# go_netns: named network namespaces

A shallow embedding of `netns.go` (package `netns`, an extension of
`github.com/vishvananda/netns`) together with a small executable model of the
collaborators the package calls: the Linux system calls `open`, `close`,
`mkdir`, `mount`, `umount2`, `unlink`, `unshare`, `setns`, `fstat`, the handle
methods of `vishvananda/netns`, and the `fmt` and `path` helpers.

Stateful code is written in explicit state-passing style over `World`.
Every system call first consults a schedule of injected failures
(`World.faults`) so that failures the model does not derive from its own state
(permissions, resource limits, name length limits, a missing parent directory,
a parent that is not a directory) are still covered by every statement
quantified over `World`.  Every system call is appended to
`World.trace`, which makes "the call was (not) attempted" observable.
-/

namespace netns

/-! ## Go errors and formatting -/

/-- Error numbers returned by the modelled system calls. -/
inductive Errno
  | EPERM | ENOENT | EINTR | EBADF | ENOMEM | EACCES | EBUSY | EEXIST
  | ENODEV | ENOTDIR | EISDIR | EINVAL | ENFILE | EMFILE | ENOSPC | EROFS
  | ENAMETOOLONG | ELOOP
deriving DecidableEq

/-- Text of `syscall.Errno.Error()` on Linux. -/
def Errno.Error : Errno → String
  | .EPERM => "operation not permitted"
  | .ENOENT => "no such file or directory"
  | .EINTR => "interrupted system call"
  | .EBADF => "bad file descriptor"
  | .ENOMEM => "cannot allocate memory"
  | .EACCES => "permission denied"
  | .EBUSY => "device or resource busy"
  | .EEXIST => "file exists"
  | .ENODEV => "no such device"
  | .ENOTDIR => "not a directory"
  | .EISDIR => "is a directory"
  | .EINVAL => "invalid argument"
  | .ENFILE => "too many open files in system"
  | .EMFILE => "too many open files"
  | .ENOSPC => "no space left on device"
  | .EROFS => "read-only file system"
  | .ENAMETOOLONG => "file name too long"
  | .ELOOP => "too many levels of symbolic links"

/-- A non-nil Go `error` value: either a `syscall.Errno` or the string error
built by `fmt.Errorf` with a format that has no wrapping verb. -/
inductive GoError
  | errno (e : Errno)
  | text (s : String)
deriving DecidableEq

/-- The `Error()` method. -/
def GoError.Error : GoError → String
  | .errno e => e.Error
  | .text s => s

/-- A Go `error` interface value; `none` is `nil`. -/
abbrev error := Option GoError

/-- The text `fmt.Sprint(err)` and the verb `%v` produce for an error value. -/
def Sprint (err : error) : String :=
  match err with
  | none => "<nil>"
  | some e => e.Error

/-- The call `fmt.Errorf(format, ...)` once the format has been expanded to `s`. -/
def Errorf (s : String) : error := some (.text s)

/-! ## path.Join -/

/-- Components of a path between slashes. -/
def splitSlash : List Char → List (List Char)
  | [] => [[]]
  | c :: cs =>
    match splitSlash cs with
    | [] => [[]]
    | seg :: rest => if c = '/' then [] :: seg :: rest else (c :: seg) :: rest

/-- One component processed by `path.Clean`; the stack holds the kept
components, last one first. -/
def cleanStep (rooted : Bool) (stack : List (List Char)) (comp : List Char) :
    List (List Char) :=
  if comp = [] ∨ comp = ['.'] then stack
  else if comp = ['.', '.'] then
    match stack with
    | [] => if rooted then [] else [comp]
    | top :: rest => if top = ['.', '.'] then comp :: stack else rest
  else comp :: stack

/-- Components joined with single slashes. -/
def joinSlash : List (List Char) → List Char
  | [] => []
  | [c] => c
  | c :: rest => c ++ '/' :: joinSlash rest

/-- The function `path.Clean`. -/
def pathClean (p : String) : String :=
  match p.data with
  | [] => "."
  | c :: _ =>
    let rooted : Bool := c = '/'
    let comps := (splitSlash p.data).foldl (cleanStep rooted) []
    let body := joinSlash comps.reverse
    let out := if rooted then '/' :: body else body
    if out = [] then "." else String.mk out

/-- The call `path.Join(a, b)`: the non-empty elements joined with a slash, cleaned. -/
def pathJoin (a b : String) : String :=
  if a = "" ∧ b = "" then ""
  else if a = "" then pathClean b
  else if b = "" then pathClean a
  else pathClean (a ++ "/" ++ b)

/-! ## Constants of the package -/

def NsRunDir : String := "/var/run/netns"
def SelfNetNs : String := "/proc/self/ns/net"

/-! ## The kernel state -/

/-- What an open file descriptor or a path refers to. -/
inductive Inode
  /-- The nsfs inode of the network namespace `id`. -/
  | netns (id : Nat)
  /-- A regular file or a directory of an ordinary file system. -/
  | plain (ino : Nat)
deriving DecidableEq

/-- A file or directory and what is mounted on top of it (topmost first). -/
structure Node where
  ino : Nat
  isDir : Bool
  mounts : List Inode
deriving DecidableEq

/-- The system calls the package issues, as recorded in the trace. -/
inductive Call
  | mkdir (path : String)
  | openat (path : String) (flags : Nat)
  | close (fd : Int)
  | unshare (flags : Nat)
  | setns (fd : Int) (nstype : Nat)
  | mount (source target : String) (flags : Nat)
  | umount (target : String) (flags : Nat)
  | unlink (path : String)
deriving DecidableEq

/-- The part of the operating system the package observes, from the point of
view of the calling thread. -/
structure World where
  /-- Network namespace the calling thread is in. -/
  cur : Nat
  /-- Network namespace the thread-group leader is in, when the calling thread
  is not the leader (`tid ≠ pid`); the calls of the calling thread do not
  change it. -/
  leaderNs : Nat
  /-- Identifier the next new network namespace gets. -/
  nextNs : Nat
  /-- Inode number the next created file gets. -/
  nextIno : Nat
  /-- Process id and thread id of the caller. -/
  pid : Nat
  tid : Nat
  /-- Files and directories by absolute path. -/
  files : String → Option Node
  /-- File descriptor table of the process, indexed by descriptor. -/
  fds : List (Option Inode)
  /-- Failures injected into the coming system calls, one entry per call. -/
  faults : List (Option Errno)
  /-- System calls issued so far, oldest first. -/
  trace : List Call

def O_RDONLY : Nat := 0x0
def O_CREAT : Nat := 0x40
def O_EXCL : Nat := 0x80
def MS_BIND : Nat := 0x1000
def MNT_DETACH : Nat := 0x2
def CLONE_NEWNET : Nat := 0x40000000

/-- Device number of nsfs and of the ordinary file system. -/
def nsfsDev : Nat := 4
def rootDev : Nat := 2049

def hasFlag (flags f : Nat) : Bool := flags &&& f != 0

/-- The failure injected into the next system call, if any. -/
def nextFault (w : World) : Option Errno :=
  match w.faults with
  | some e :: _ => some e
  | _ => none

/-- Entry of a system call: the call is recorded and one entry of the failure
schedule is consumed. -/
def World.enter (w : World) (c : Call) : Option Errno × World :=
  (nextFault w, { w with faults := w.faults.tail, trace := w.trace ++ [c] })

/-- The pseudo-file of the calling thread as `vishvananda/netns` names it. -/
def threadNetNs (w : World) : String :=
  "/proc/" ++ toString w.pid ++ "/task/" ++ toString w.tid ++ "/ns/net"

/-- The namespace `/proc/self/ns/net` denotes.  The link `/proc/self` is the
directory of the process, that is of the thread-group leader: it denotes the
namespace of the calling thread only when the caller is the leader. -/
def selfNs (w : World) : Nat :=
  if w.tid = w.pid then w.cur else w.leaderNs

/-- The two namespace pseudo-files of procfs the package uses exist. -/
def isProcNs (w : World) (path : String) : Bool :=
  path = SelfNetNs || path = threadNetNs w

/-- The namespace a pseudo-file of procfs denotes: the per-thread file that of
the calling thread, `/proc/self/ns/net` that of the thread-group leader. -/
def procNs (w : World) (path : String) : Nat :=
  if path = threadNetNs w then w.cur else selfNs w

/-- Path lookup: the inode a path refers to. -/
def resolve (w : World) (path : String) : Option Inode :=
  if isProcNs w path then some (.netns (procNs w path))
  else
    match w.files path with
    | none => none
    | some n =>
      match n.mounts with
      | [] => some (.plain n.ino)
      | i :: _ => some i

/-- Slot `k` of the descriptor table. -/
def fdAt : List (Option Inode) → Nat → Option Inode
  | [], _ => none
  | a :: _, 0 => a
  | _ :: t, k + 1 => fdAt t k

/-- Entry of the descriptor table; `none` when `fd` is not an open descriptor. -/
def fdGet (t : List (Option Inode)) (fd : Int) : Option Inode :=
  if fd < 0 then none else fdAt t fd.toNat

/-- Lowest descriptor not in use. -/
def lowestFree : List (Option Inode) → Nat
  | [] => 0
  | none :: _ => 0
  | some _ :: t => lowestFree t + 1

/-- The table with `i` installed at the lowest free descriptor. -/
def fdInstall : List (Option Inode) → Inode → List (Option Inode)
  | [], i => [some i]
  | none :: t, i => some i :: t
  | some j :: t, i => some j :: fdInstall t i

/-- The table with descriptor `k` released. -/
def fdClear : List (Option Inode) → Nat → List (Option Inode)
  | [], _ => []
  | _ :: t, 0 => none :: t
  | a :: t, k + 1 => a :: fdClear t k

/-- The table of files with `path` bound to `n`. -/
def setFile (files : String → Option Node) (path : String) (n : Option Node) :
    String → Option Node :=
  fun q => if q = path then n else files q

/-! ## System calls -/

/-- Result of `fstat`. -/
structure Stat where
  Dev : Nat
  Ino : Nat
deriving DecidableEq

/-- The call `syscall.Open(path, flags, perm)`.  Failures of the path walk
(a name over the length limit, a missing parent, a parent that is not a
directory) are not derived from the files; they arrive through the failure
schedule. -/
def sysOpen (path : String) (flags : Nat) (_perm : Nat) (w : World) : (Int × error) × World :=
  let r := w.enter (.openat path flags)
  match r.1 with
  | some e => ((-1, some (.errno e)), r.2)
  | none =>
    match resolve r.2 path with
    | some i =>
      if hasFlag flags O_CREAT && hasFlag flags O_EXCL then
        ((-1, some (.errno .EEXIST)), r.2)
      else
        ((Int.ofNat (lowestFree r.2.fds), none), { r.2 with fds := fdInstall r.2.fds i })
    | none =>
      if hasFlag flags O_CREAT then
        ((Int.ofNat (lowestFree r.2.fds), none),
          { r.2 with
            files := setFile r.2.files path (some ⟨r.2.nextIno, false, []⟩)
            nextIno := r.2.nextIno + 1
            fds := fdInstall r.2.fds (.plain r.2.nextIno) })
      else
        ((-1, some (.errno .ENOENT)), r.2)

/-- The call `syscall.Close(fd)`. -/
def sysClose (fd : Int) (w : World) : error × World :=
  let r := w.enter (.close fd)
  match r.1 with
  | some e => (some (.errno e), r.2)
  | none =>
    match fdGet r.2.fds fd with
    | none => (some (.errno .EBADF), r.2)
    | some _ => (none, { r.2 with fds := fdClear r.2.fds fd.toNat })

/-- The call `os.Mkdir(path, perm)`. -/
def sysMkdir (path : String) (_perm : Nat) (w : World) : error × World :=
  let r := w.enter (.mkdir path)
  match r.1 with
  | some e => (some (.errno e), r.2)
  | none =>
    if isProcNs r.2 path || (r.2.files path).isSome then
      (some (.errno .EEXIST), r.2)
    else
      (none, { r.2 with
        files := setFile r.2.files path (some ⟨r.2.nextIno, true, []⟩)
        nextIno := r.2.nextIno + 1 })

/-- The call `syscall.Unshare(flags)` with `CLONE_NEWNET`: the calling thread
moves into a new, empty network namespace. -/
def sysUnshare (flags : Nat) (w : World) : error × World :=
  let r := w.enter (.unshare flags)
  match r.1 with
  | some e => (some (.errno e), r.2)
  | none =>
    if hasFlag flags CLONE_NEWNET then
      (none, { r.2 with cur := r.2.nextNs, nextNs := r.2.nextNs + 1 })
    else
      (none, r.2)

/-- The call `setns(fd, nstype)` with `CLONE_NEWNET`. -/
def sysSetns (fd : Int) (nstype : Nat) (w : World) : error × World :=
  let r := w.enter (.setns fd nstype)
  match r.1 with
  | some e => (some (.errno e), r.2)
  | none =>
    match fdGet r.2.fds fd with
    | none => (some (.errno .EBADF), r.2)
    | some (.plain _) => (some (.errno .EINVAL), r.2)
    | some (.netns n) => (none, { r.2 with cur := n })

/-- The call `syscall.Mount(source, target, fstype, flags, data)`; only bind
mounts are modelled. -/
def sysMount (source target _fstype : String) (flags : Nat) (_data : String) (w : World) : error × World :=
  let r := w.enter (.mount source target flags)
  match r.1 with
  | some e => (some (.errno e), r.2)
  | none =>
    if !hasFlag flags MS_BIND then (some (.errno .ENODEV), r.2)
    else
      match resolve r.2 source with
      | none => (some (.errno .ENOENT), r.2)
      | some i =>
        if isProcNs r.2 target then (some (.errno .EINVAL), r.2)
        else
          match r.2.files target with
          | none => (some (.errno .ENOENT), r.2)
          | some n =>
            (none, { r.2 with
              files := setFile r.2.files target (some { n with mounts := i :: n.mounts }) })

/-- The call `syscall.Unmount(target, flags)`: the topmost mount on `target`
is detached.  Failures of the path walk (`ENAMETOOLONG`, `ENOTDIR` and the
like) arrive through the failure schedule. -/
def sysUnmount (target : String) (flags : Nat) (w : World) : error × World :=
  let r := w.enter (.umount target flags)
  match r.1 with
  | some e => (some (.errno e), r.2)
  | none =>
    if isProcNs r.2 target then (some (.errno .EINVAL), r.2)
    else
      match r.2.files target with
      | none => (some (.errno .ENOENT), r.2)
      | some n =>
        match n.mounts with
        | [] => (some (.errno .EINVAL), r.2)
        | _ :: rest =>
          (none, { r.2 with
            files := setFile r.2.files target (some { n with mounts := rest }) })

/-- The call `syscall.Unlink(path)`. -/
def sysUnlink (path : String) (w : World) : error × World :=
  let r := w.enter (.unlink path)
  match r.1 with
  | some e => (some (.errno e), r.2)
  | none =>
    if isProcNs r.2 path then (some (.errno .EPERM), r.2)
    else
      match r.2.files path with
      | none => (some (.errno .ENOENT), r.2)
      | some n =>
        if n.isDir then (some (.errno .EISDIR), r.2)
        else if n.mounts ≠ [] then (some (.errno .EBUSY), r.2)
        else (none, { r.2 with files := setFile r.2.files path none })

/-- The call `syscall.Fstat(fd, &st)`; a query, it leaves the world as it is. -/
def sysFstat (w : World) (fd : Int) : Option Stat :=
  match fdGet w.fds fd with
  | none => none
  | some (.netns n) => some ⟨nsfsDev, n⟩
  | some (.plain i) => some ⟨rootDev, i⟩

/-! ## Handles of vishvananda/netns -/

/-- A handle is a file descriptor; `-1` is the closed handle. -/
abbrev NsHandle := Int

namespace vnetns

/-- The function `GetFromPath`. -/
def GetFromPath (path : String) (w : World) : (NsHandle × error) × World :=
  let r := sysOpen path O_RDONLY 0 w
  if r.1.2 ≠ none then ((-1, r.1.2), r.2) else ((r.1.1, none), r.2)

/-- The function `GetFromThread`, at the pid and tid of the caller. -/
def GetFromThread (w : World) : (NsHandle × error) × World :=
  GetFromPath (threadNetNs w) w

/-- The function `Get`. -/
def Get (w : World) : (NsHandle × error) × World :=
  GetFromThread w

/-- The function `Set`. -/
def Set (ns : NsHandle) (w : World) : error × World :=
  sysSetns ns CLONE_NEWNET w

/-- The function `New`. -/
def New (w : World) : (NsHandle × error) × World :=
  let r := sysUnshare CLONE_NEWNET w
  if r.1 ≠ none then ((-1, r.1), r.2) else Get r.2

/-- The function `None`. -/
def None : NsHandle := -1

/-- The method `Close`: the handle is reset to `-1` only when `close` succeeded. -/
def Close (ns : NsHandle) (w : World) : (error × NsHandle) × World :=
  let r := sysClose ns w
  if r.1 ≠ none then ((r.1, ns), r.2) else ((none, -1), r.2)

/-- The method `Equal`. -/
def Equal (w : World) (ns other : NsHandle) : Bool :=
  if ns = other then true
  else
    match sysFstat w ns with
    | none => false
    | some s1 =>
      match sysFstat w other with
      | none => false
      | some s2 => s1.Dev = s2.Dev && s1.Ino = s2.Ino

/-- The method `IsOpen`. -/
def IsOpen (ns : NsHandle) : Bool := ns != -1

/-- The method `UniqueId`. -/
def UniqueId (w : World) (ns : NsHandle) : String :=
  if ns = -1 then "NS(none)"
  else
    match sysFstat w ns with
    | none => "NS(unknown)"
    | some s => "NS(" ++ toString s.Dev ++ ":" ++ toString s.Ino ++ ")"

end vnetns

/-! ## The package -/

/-- The type `NsDesc`. -/
structure NsDesc where
  Handle : NsHandle
  Name : String
deriving DecidableEq

/-- The function `DeleteByName`. -/
def DeleteByName (name : String) (w : World) : error × World :=
  let banner := "CloseByName(" ++ name ++ "): "
  let path := pathJoin NsRunDir name
  let r := sysUnmount path MNT_DETACH w
  if r.1 ≠ none then
    (Errorf (banner ++ "Unmount(): " ++ Sprint r.1), r.2)
  else
    let u := sysUnlink path r.2
    if u.1 ≠ none then
      (Errorf (banner ++ "Unlink(): " ++ Sprint u.1), u.2)
    else
      (none, u.2)

/-- The function `IsNotExist`. -/
def IsNotExist (err : error) : Bool :=
  if Sprint err = "no such file or directory" then true else false

/-- The function `GetMyHandle`. -/
def GetMyHandle (w : World) : (NsHandle × error) × World :=
  vnetns.Get w

/-- The function `Get`. -/
def Get (w : World) : (NsDesc × error) × World :=
  let r := GetMyHandle w
  ((⟨r.1.1, ""⟩, r.1.2), r.2)

/-- The function `GetHandleByName`. -/
def GetHandleByName (name : String) (w : World) : (NsHandle × error) × World :=
  let path := pathJoin NsRunDir name
  vnetns.GetFromPath path w

/-- The function `GetByName`. -/
def GetByName (name : String) (w : World) : (NsDesc × error) × World :=
  let r := GetHandleByName name w
  ((⟨r.1.1, name⟩, r.1.2), r.2)

/-- The function `New`. -/
def New (w : World) : (NsHandle × error) × World :=
  vnetns.New w

/-- The function `SetByHandle`. -/
def SetByHandle (h : NsHandle) (w : World) : error × World :=
  vnetns.Set h w

/-- The function `Set`. -/
def Set (ns : NsDesc) (w : World) : error × World :=
  SetByHandle ns.Handle w

/-- The method `Set` of `NsDesc`. -/
def NsDesc.Set (ns : NsDesc) (w : World) : error × World :=
  SetByHandle ns.Handle w

/-- The function `NewByName`.  The results of `os.Mkdir` and of
`syscall.Close` are dropped, as in the source. -/
def NewByName (name : String) (w : World) : (NsDesc × error) × World :=
  let banner := "NewByName(" ++ name ++ "): "
  let netNsPath := pathJoin NsRunDir name
  let desc : NsDesc := ⟨0, name⟩
  let m := sysMkdir NsRunDir 0o755 w
  let o := sysOpen netNsPath (O_RDONLY ||| O_CREAT ||| O_EXCL) 0 m.2
  if o.1.2 ≠ none then
    ((desc, Errorf (banner ++ Sprint o.1.2)), o.2)
  else
    let c := sysClose o.1.1 o.2
    let n := New c.2
    let desc : NsDesc := { desc with Handle := n.1.1 }
    if n.1.2 ≠ none then
      ((desc, Errorf (banner ++ Sprint n.1.2)), n.2)
    else
      let b := sysMount SelfNetNs netNsPath "none" MS_BIND "" n.2
      if b.1 ≠ none then
        ((desc, Errorf (banner ++ Sprint b.1)), b.2)
      else
        ((desc, none), b.2)

/-- The function `SetByName`. -/
def SetByName (name : String) (w : World) : (NsDesc × error) × World :=
  let g := GetByName name w
  if g.1.2 = none then
    let s := g.1.1.Set g.2
    ((g.1.1, s.1), s.2)
  else if IsNotExist g.1.2 then
    NewByName name g.2
  else
    ((g.1.1, g.1.2), g.2)

/-- The function `AddByName`. -/
def AddByName (name : String) (w : World) : (NsDesc × error) × World :=
  let banner := "AddByName(" ++ name ++ "): "
  let g := GetMyHandle w
  if g.1.2 ≠ none then
    ((⟨0, ""⟩, Errorf (banner ++ "GetMyHandle(): " ++ Sprint g.1.2)), g.2)
  else
    let s := SetByName name g.2
    if s.1.2 ≠ none then
      ((⟨0, ""⟩, Errorf (banner ++ "SetByName(): " ++ Sprint s.1.2)), s.2)
    else
      let b := SetByHandle g.1.1 s.2
      if b.1 ≠ none then
        ((s.1.1, Errorf (banner ++ "SetByHandle(): " ++ Sprint b.1)), b.2)
      else
        ((s.1.1, none), b.2)

/-- The function `None`. -/
def None : NsHandle := vnetns.None

/-- The method `Copy`.  The receiver is only read. -/
def NsDesc.Copy (ns : NsDesc) : NsDesc :=
  { Name := ns.Name, Handle := ns.Handle }

/-- The method `Close`; the second component is the receiver after the call. -/
def NsDesc.Close (ns : NsDesc) (w : World) : (error × NsDesc) × World :=
  let r := vnetns.Close ns.Handle w
  ((r.1.1, { ns with Handle := r.1.2 }), r.2)

/-- The method `Delete`; the second component is the receiver after the call. -/
def NsDesc.Delete (ns : NsDesc) (w : World) : (error × NsDesc) × World :=
  let c := ns.Close w
  let d := DeleteByName c.1.2.Name c.2
  ((d.1, c.1.2), d.2)

/-- The method `Equal`. -/
def NsDesc.Equal (w : World) (ns other : NsDesc) : Bool :=
  vnetns.Equal w ns.Handle other.Handle

/-- The method `IsOpen`. -/
def NsDesc.IsOpen (ns : NsDesc) : Bool :=
  vnetns.IsOpen ns.Handle

/-- The method `UniqueId`. -/
def NsDesc.UniqueId (w : World) (ns : NsDesc) : String :=
  vnetns.UniqueId w ns.Handle

/-! ## Sample worlds -/

/-- A registry directory with no entries; the caller is in namespace 1 and has
the three standard descriptors open. -/
def worldEmpty : World where
  cur := 1
  leaderNs := 1
  nextNs := 2
  nextIno := 100
  pid := 321
  tid := 321
  files := fun q => if q = NsRunDir then some ⟨50, true, []⟩ else none
  fds := [some (.plain 3), some (.plain 3), some (.plain 3)]
  faults := []
  trace := []

/-- The registry holds a plain file `ns-a` on which nothing is mounted, as a
`NewByName` that failed after creating the file leaves it. -/
def worldPlainEntry : World :=
  { worldEmpty with
    files := fun q =>
      if q = "/var/run/netns/ns-a" then some ⟨100, false, []⟩ else worldEmpty.files q
    nextIno := 101 }

/-- The registry holds the entry `ns-a`, bound to namespace 2; the caller is in
namespace 1. -/
def worldBound : World :=
  { worldEmpty with
    files := fun q =>
      if q = "/var/run/netns/ns-a" then some ⟨100, false, [.netns 2]⟩
      else worldEmpty.files q
    nextNs := 3
    nextIno := 101 }

/-- A copy of the descriptor `NewByName` returned for `ns-a`. -/
def staleCopy : NsDesc :=
  (NewByName "ns-a" worldEmpty).1.1.Copy

/-- The world after `NewByName` of `ns-a` and a `Close` of the descriptor it
returned: the descriptor number held by `staleCopy` is no longer open. -/
def staleCopyWorld : World :=
  ((NewByName "ns-a" worldEmpty).1.1.Close (NewByName "ns-a" worldEmpty).2).2

/-- The empty registry seen from a thread that is not the thread-group leader
(a goroutine locked to an OS thread other than the first); the leader is in
namespace 1 as well. -/
def worldNonLeader : World :=
  { worldEmpty with tid := 322 }

/-- The caller lacks the privilege for the coming call, which fails with
`EPERM`. -/
def worldNotPermitted : World :=
  { worldEmpty with faults := [some .EPERM] }

/-- The lookup of the coming call fails with `EACCES`. -/
def worldDenied : World :=
  { worldEmpty with faults := [some .EACCES] }

/-! ## Descriptor table lemmas -/

theorem fdAt_lowestFree (t : List (Option Inode)) : fdAt t (lowestFree t) = none := by
  induction t with
  | nil => rfl
  | cons a t ih =>
    cases a with
    | none => rfl
    | some j => simpa [fdAt, lowestFree] using ih

theorem fdGet_lowestFree (t : List (Option Inode)) :
    fdGet t (Int.ofNat (lowestFree t)) = none := by
  simp [fdGet, fdAt_lowestFree]

theorem fdAt_fdInstall_of_some (t : List (Option Inode)) (i x : Inode) (k : Nat)
    (h : fdAt t k = some x) : fdAt (fdInstall t i) k = some x := by
  induction t generalizing k with
  | nil => simp [fdAt] at h
  | cons a t ih =>
    cases a with
    | none =>
      cases k with
      | zero => simp [fdAt] at h
      | succ k => simpa [fdInstall, fdAt] using h
    | some j =>
      cases k with
      | zero => simpa [fdInstall, fdAt] using h
      | succ k =>
        simp only [fdInstall, fdAt] at h ⊢
        exact ih k h

theorem fdGet_fdInstall_of_some (t : List (Option Inode)) (i x : Inode) (fd : Int)
    (h : fdGet t fd = some x) : fdGet (fdInstall t i) fd = some x := by
  unfold fdGet at h ⊢
  split at h
  · simp at h
  · rename_i hneg
    simp only [hneg, if_false]
    exact fdAt_fdInstall_of_some t i x _ h

theorem fdAt_fdInstall_lowestFree (t : List (Option Inode)) (i : Inode) :
    fdAt (fdInstall t i) (lowestFree t) = some i := by
  induction t with
  | nil => rfl
  | cons a t ih =>
    cases a with
    | none => rfl
    | some j => simpa [fdInstall, lowestFree, fdAt] using ih

theorem fdGet_fdInstall_lowestFree (t : List (Option Inode)) (i : Inode) :
    fdGet (fdInstall t i) (Int.ofNat (lowestFree t)) = some i := by
  simp [fdGet, fdAt_fdInstall_lowestFree]

theorem fdAt_fdClear_ne (t : List (Option Inode)) (k j : Nat) (hne : j ≠ k) :
    fdAt (fdClear t k) j = fdAt t j := by
  induction t generalizing k j with
  | nil => rfl
  | cons a t ih =>
    cases k with
    | zero =>
      cases j with
      | zero => exact absurd rfl hne
      | succ j => rfl
    | succ k =>
      cases j with
      | zero => rfl
      | succ j =>
        simp only [fdClear, fdAt]
        exact ih k j (by omega)

theorem fdAt_fdClear_self (t : List (Option Inode)) (k : Nat) :
    fdAt (fdClear t k) k = none := by
  induction t generalizing k with
  | nil => rfl
  | cons a t ih =>
    cases k with
    | zero => rfl
    | succ k => simpa [fdClear, fdAt] using ih k

/-- Releasing an open descriptor leaves every other descriptor as it was. -/
theorem fdGet_fdClear_ne (t : List (Option Inode)) (fd a : Int) (y : Inode)
    (hfd : fdGet t fd = some y) (hne : a ≠ fd) :
    fdGet (fdClear t fd.toNat) a = fdGet t a := by
  unfold fdGet at hfd ⊢
  split at hfd
  · simp at hfd
  · by_cases ha : a < 0
    · simp [ha]
    · simp only [ha, if_false]
      exact fdAt_fdClear_ne t _ _ (by omega)

theorem fdGet_fdClear_self (t : List (Option Inode)) (fd : Int) :
    fdGet (fdClear t fd.toNat) fd = none := by
  unfold fdGet
  split
  · rfl
  · exact fdAt_fdClear_self t _

/-! ## String lemmas -/

theorem closeBanner_ne (s : String) :
    "CloseByName(" ++ s ≠ "no such file or directory" := by
  intro h
  have h2 := congrArg String.data h
  rw [String.data_append] at h2
  have h3 := congrArg List.head? h2
  simp at h3

theorem eq_empty_of_length_zero (s : String) (h : s.length = 0) : s = "" := by
  cases s with
  | mk d =>
    have hd : d = [] := List.length_eq_zero.mp h
    subst hd
    rfl

theorem append_left_ne (ctx s : String) (h : ctx ≠ "") : ctx ++ s ≠ s := by
  intro he
  have h2 := congrArg String.length he
  rw [String.length_append] at h2
  exact h (eq_empty_of_length_zero ctx (by omega))

theorem append_right_ne (ctx s : String) (h : ctx ≠ "") : s ++ ctx ≠ s := by
  intro he
  have h2 := congrArg String.length he
  rw [String.length_append] at h2
  exact h (eq_empty_of_length_zero ctx (by omega))

/-! ## Classification of errors -/

/-- C8: `IsNotExist err` is true exactly when the printed string of `err` is
"no such file or directory"; it is false for the nil error and for every error
whose text is that phrase with non-empty context before or after it. -/
theorem IsNotExist_iff_exact_text (err : error) :
    (IsNotExist err = true ↔ Sprint err = "no such file or directory") ∧
    IsNotExist none = false ∧
    (∀ ctx : String, ctx ≠ "" →
      IsNotExist (Errorf (ctx ++ "no such file or directory")) = false ∧
      IsNotExist (Errorf ("no such file or directory" ++ ctx)) = false ∧
      IsNotExist (Errorf (ctx ++ Sprint (some (.errno .ENOENT)))) = false) := by
  refine ⟨by simp [IsNotExist], by decide, ?_⟩
  intro ctx hctx
  have h1 := append_left_ne ctx "no such file or directory" hctx
  have h2 := append_right_ne ctx "no such file or directory" hctx
  refine ⟨?_, ?_, ?_⟩
  · simp [IsNotExist, Errorf, Sprint, GoError.Error, h1]
  · simp [IsNotExist, Errorf, Sprint, GoError.Error, h2]
  · simp [IsNotExist, Errorf, Sprint, GoError.Error, Errno.Error, h1]

/-! ## Copy -/

/-- C9: the copy of a descriptor has the name and the handle of the original,
is `Equal` to it, and has the same `UniqueId`, in every state of the world. -/
theorem Copy_same_name_handle (d : NsDesc) (w : World) :
    d.Copy.Name = d.Name ∧ d.Copy.Handle = d.Handle ∧ d.Copy = d ∧
    NsDesc.Equal w d d.Copy = true ∧
    NsDesc.UniqueId w d = NsDesc.UniqueId w d.Copy := by
  simp [NsDesc.Copy, NsDesc.Equal, NsDesc.UniqueId, vnetns.Equal]

/-! ## Frame lemmas for the system calls -/

@[simp]
theorem enter_fst (w : World) (c : Call) : (w.enter c).1 = nextFault w := rfl
@[simp]
theorem enter_cur (w : World) (c : Call) : (w.enter c).2.cur = w.cur := rfl
@[simp]
theorem enter_leaderNs (w : World) (c : Call) : (w.enter c).2.leaderNs = w.leaderNs := rfl
@[simp]
theorem enter_nextNs (w : World) (c : Call) : (w.enter c).2.nextNs = w.nextNs := rfl
@[simp]
theorem enter_nextIno (w : World) (c : Call) : (w.enter c).2.nextIno = w.nextIno := rfl
@[simp]
theorem enter_pid (w : World) (c : Call) : (w.enter c).2.pid = w.pid := rfl
@[simp]
theorem enter_tid (w : World) (c : Call) : (w.enter c).2.tid = w.tid := rfl
@[simp]
theorem enter_files (w : World) (c : Call) : (w.enter c).2.files = w.files := rfl
@[simp]
theorem enter_fds (w : World) (c : Call) : (w.enter c).2.fds = w.fds := rfl
@[simp]
theorem enter_faults (w : World) (c : Call) :
    (w.enter c).2.faults = w.faults.tail := rfl
@[simp]
theorem enter_trace (w : World) (c : Call) :
    (w.enter c).2.trace = w.trace ++ [c] := rfl
@[simp]
theorem enter_isProcNs (w : World) (c : Call) (p : String) :
    isProcNs (w.enter c).2 p = isProcNs w p := rfl
@[simp]
theorem enter_resolve (w : World) (c : Call) (p : String) :
    resolve (w.enter c).2 p = resolve w p := rfl
@[simp]
theorem enter_threadNetNs (w : World) (c : Call) :
    threadNetNs (w.enter c).2 = threadNetNs w := rfl

theorem sysOpen_cur (p : String) (fl m : Nat) (w : World) :
    (sysOpen p fl m w).2.cur = w.cur := by
  unfold sysOpen; dsimp only; split
  · rfl
  · split <;> split <;> rfl

theorem sysOpen_nextNs (p : String) (fl m : Nat) (w : World) :
    (sysOpen p fl m w).2.nextNs = w.nextNs := by
  unfold sysOpen; dsimp only; split
  · rfl
  · split <;> split <;> rfl

theorem sysOpen_pid (p : String) (fl m : Nat) (w : World) :
    (sysOpen p fl m w).2.pid = w.pid := by
  unfold sysOpen; dsimp only; split
  · rfl
  · split <;> split <;> rfl

theorem sysOpen_tid (p : String) (fl m : Nat) (w : World) :
    (sysOpen p fl m w).2.tid = w.tid := by
  unfold sysOpen; dsimp only; split
  · rfl
  · split <;> split <;> rfl

theorem sysOpen_trace (p : String) (fl m : Nat) (w : World) :
    (sysOpen p fl m w).2.trace = w.trace ++ [Call.openat p fl] := by
  unfold sysOpen; dsimp only; split
  · rfl
  · split <;> split <;> rfl

theorem sysOpen_faults (p : String) (fl m : Nat) (w : World) :
    (sysOpen p fl m w).2.faults = w.faults.tail := by
  unfold sysOpen; dsimp only; split
  · rfl
  · split <;> split <;> rfl

/-- A descriptor that is open stays open, with the same target, across `open`. -/
theorem sysOpen_fd_of_some (p : String) (fl m : Nat) (w : World) (a : Int) (x : Inode)
    (h : fdGet w.fds a = some x) : fdGet (sysOpen p fl m w).2.fds a = some x := by
  unfold sysOpen; dsimp only; split
  · exact h
  · split <;> split
    · exact h
    · exact fdGet_fdInstall_of_some _ _ _ _ h
    · exact fdGet_fdInstall_of_some _ _ _ _ h
    · exact h

/-- The descriptor a successful `open` returns was not in use before. -/
theorem sysOpen_fresh (p : String) (fl m : Nat) (w : World)
    (h : (sysOpen p fl m w).1.2 = none) : fdGet w.fds (sysOpen p fl m w).1.1 = none := by
  cases hf : nextFault w with
  | some e => simp [sysOpen, hf] at h
  | none =>
    cases hr : resolve w p with
    | some i =>
      by_cases hc : (hasFlag fl O_CREAT && hasFlag fl O_EXCL) = true
      · simp [sysOpen, hf, hr, hc] at h
      · simp only [sysOpen, enter_fst, hf, enter_resolve, hr, hc, if_false, enter_fds]
        exact fdGet_lowestFree _
    | none =>
      by_cases hc : hasFlag fl O_CREAT = true
      · simp only [sysOpen, enter_fst, hf, enter_resolve, hr, hc, if_true, enter_fds]
        exact fdGet_lowestFree _
      · simp [sysOpen, hf, hr, hc] at h

theorem hasFlag_rdonly_creat : hasFlag O_RDONLY O_CREAT = false := by decide
theorem hasFlag_excl_creat : hasFlag (O_RDONLY ||| O_CREAT ||| O_EXCL) O_CREAT = true := by
  decide
theorem hasFlag_excl_excl : hasFlag (O_RDONLY ||| O_CREAT ||| O_EXCL) O_EXCL = true := by
  decide
theorem hasFlag_bind : hasFlag MS_BIND MS_BIND = true := by decide
theorem hasFlag_newnet : hasFlag CLONE_NEWNET CLONE_NEWNET = true := by decide

/-- A read-only `open` creates and removes no file. -/
theorem sysOpen_rdonly_files (p : String) (m : Nat) (w : World) :
    (sysOpen p O_RDONLY m w).2.files = w.files := by
  cases hf : nextFault w with
  | some e => simp [sysOpen, hf]
  | none =>
    cases hr : resolve w p with
    | some i => simp [sysOpen, hf, hr, hasFlag_rdonly_creat]
    | none => simp [sysOpen, hf, hr, hasFlag_rdonly_creat]

theorem sysOpen_rdonly_nextIno (p : String) (m : Nat) (w : World) :
    (sysOpen p O_RDONLY m w).2.nextIno = w.nextIno := by
  cases hf : nextFault w with
  | some e => simp [sysOpen, hf]
  | none =>
    cases hr : resolve w p with
    | some i => simp [sysOpen, hf, hr, hasFlag_rdonly_creat]
    | none => simp [sysOpen, hf, hr, hasFlag_rdonly_creat]

/-- A successful read-only `open` returns a descriptor for what the path
resolves to. -/
theorem sysOpen_rdonly_ok (p : String) (m : Nat) (w : World)
    (h : (sysOpen p O_RDONLY m w).1.2 = none) :
    resolve w p ≠ none ∧
    fdGet (sysOpen p O_RDONLY m w).2.fds (sysOpen p O_RDONLY m w).1.1 = resolve w p := by
  cases hf : nextFault w with
  | some e => simp [sysOpen, hf] at h
  | none =>
    cases hr : resolve w p with
    | some i =>
      simp only [sysOpen, enter_fst, hf, enter_resolve, hr, hasFlag_rdonly_creat,
        Bool.false_and, enter_fds]
      exact ⟨by simp, fdGet_fdInstall_lowestFree _ _⟩
    | none => simp [sysOpen, hf, hr, hasFlag_rdonly_creat] at h

/-- With no injected failure a read-only `open` of an existing path succeeds. -/
theorem sysOpen_rdonly_of_resolve (p : String) (m : Nat) (w : World) (i : Inode)
    (hf : nextFault w = none) (hr : resolve w p = some i) :
    (sysOpen p O_RDONLY m w).1.2 = none := by
  simp [sysOpen, hf, hr, hasFlag_rdonly_creat]

/-- With no injected failure a read-only `open` of a missing path is `ENOENT`. -/
theorem sysOpen_rdonly_enoent (p : String) (m : Nat) (w : World)
    (hf : nextFault w = none) (hr : resolve w p = none) :
    (sysOpen p O_RDONLY m w).1 = (-1, some (.errno .ENOENT)) := by
  simp [sysOpen, hf, hr, hasFlag_rdonly_creat]

/-- A read-only `open` of a missing path fails, whatever is injected. -/
theorem sysOpen_rdonly_missing (p : String) (m : Nat) (w : World)
    (hr : resolve w p = none) : (sysOpen p O_RDONLY m w).1.2 ≠ none := by
  cases hf : nextFault w with
  | some e => simp [sysOpen, hf]
  | none => simp [sysOpen, hf, hr, hasFlag_rdonly_creat]

/-- A failed `open` changes nothing but the trace and the failure schedule. -/
theorem sysOpen_fail_world (p : String) (fl m : Nat) (w : World)
    (h : (sysOpen p fl m w).1.2 ≠ none) :
    (sysOpen p fl m w).2 = (w.enter (.openat p fl)).2 := by
  cases hf : nextFault w with
  | some e => simp [sysOpen, hf]
  | none =>
    cases hr : resolve w p with
    | some i =>
      by_cases hc : (hasFlag fl O_CREAT && hasFlag fl O_EXCL) = true
      · simp [sysOpen, hf, hr, hc]
      · simp [sysOpen, hf, hr, hc] at h
    | none =>
      by_cases hc : hasFlag fl O_CREAT = true
      · simp [sysOpen, hf, hr, hc] at h
      · simp [sysOpen, hf, hr, hc]

/-- An exclusive create of an existing path fails; with no injected failure
the error is `EEXIST`. -/
theorem sysOpen_excl_exists (p : String) (m : Nat) (w : World)
    (hr : resolve w p ≠ none) :
    (sysOpen p (O_RDONLY ||| O_CREAT ||| O_EXCL) m w).1.2 ≠ none ∧
    (nextFault w = none →
      (sysOpen p (O_RDONLY ||| O_CREAT ||| O_EXCL) m w).1.2 = some (.errno .EEXIST)) := by
  cases hf : nextFault w with
  | some e => simp [sysOpen, hf]
  | none =>
    cases hq : resolve w p with
    | some i => simp [sysOpen, hf, hq, hasFlag_excl_creat, hasFlag_excl_excl]
    | none => exact absurd hq hr

/-- A successful exclusive create found no file and made an empty one. -/
theorem sysOpen_excl_ok (p : String) (m : Nat) (w : World)
    (h : (sysOpen p (O_RDONLY ||| O_CREAT ||| O_EXCL) m w).1.2 = none) :
    resolve w p = none ∧
    (sysOpen p (O_RDONLY ||| O_CREAT ||| O_EXCL) m w).2.files =
      setFile w.files p (some ⟨w.nextIno, false, []⟩) := by
  cases hf : nextFault w with
  | some e => simp [sysOpen, hf] at h
  | none =>
    cases hr : resolve w p with
    | some i => simp [sysOpen, hf, hr, hasFlag_excl_creat, hasFlag_excl_excl] at h
    | none => simp [sysOpen, hf, hr, hasFlag_excl_creat]

/-- What `close` leaves alone. -/
theorem sysClose_frame (fd : Int) (w : World) :
    (sysClose fd w).2.cur = w.cur ∧ (sysClose fd w).2.nextNs = w.nextNs ∧
    (sysClose fd w).2.files = w.files ∧ (sysClose fd w).2.pid = w.pid ∧
    (sysClose fd w).2.tid = w.tid ∧ (sysClose fd w).2.nextIno = w.nextIno ∧
    (sysClose fd w).2.faults = w.faults.tail ∧
    (sysClose fd w).2.trace = w.trace ++ [Call.close fd] := by
  cases hf : nextFault w with
  | some e => simp [sysClose, hf]
  | none =>
    cases hg : fdGet w.fds fd with
    | none => simp [sysClose, hf, hg]
    | some i => simp [sysClose, hf, hg]

/-- Closing one descriptor leaves every other open descriptor as it was. -/
theorem sysClose_fd_of_ne (fd a : Int) (w : World) (hne : a ≠ fd) :
    fdGet (sysClose fd w).2.fds a = fdGet w.fds a := by
  cases hf : nextFault w with
  | some e => simp [sysClose, hf]
  | none =>
    cases hg : fdGet w.fds fd with
    | none => simp [sysClose, hf, hg]
    | some i =>
      simp only [sysClose, enter_fst, hf, enter_fds, hg]
      exact fdGet_fdClear_ne _ _ _ i hg hne

/-- A failed `close` leaves the table as it was; a successful one releases
the descriptor. -/
theorem sysClose_result (fd : Int) (w : World) :
    ((sysClose fd w).1 ≠ none → (sysClose fd w).2.fds = w.fds) ∧
    ((sysClose fd w).1 = none → fdGet (sysClose fd w).2.fds fd = none) ∧
    (fdGet w.fds fd = none → (sysClose fd w).1 ≠ none) := by
  cases hf : nextFault w with
  | some e => simp [sysClose, hf]
  | none =>
    cases hg : fdGet w.fds fd with
    | none => simp [sysClose, hf, hg]
    | some i =>
      simp only [sysClose, enter_fst, hf, enter_fds, hg]
      exact ⟨by simp, fun _ => fdGet_fdClear_self _ _, by simp⟩

/-- What `mkdir` leaves alone. -/
theorem sysMkdir_frame (p : String) (m : Nat) (w : World) :
    (sysMkdir p m w).2.cur = w.cur ∧ (sysMkdir p m w).2.nextNs = w.nextNs ∧
    (sysMkdir p m w).2.fds = w.fds ∧ (sysMkdir p m w).2.pid = w.pid ∧
    (sysMkdir p m w).2.tid = w.tid ∧
    (sysMkdir p m w).2.faults = w.faults.tail ∧
    (sysMkdir p m w).2.trace = w.trace ++ [Call.mkdir p] := by
  cases hf : nextFault w with
  | some e => simp [sysMkdir, hf]
  | none =>
    by_cases hc : (isProcNs w p || (w.files p).isSome) = true
    · simp [sysMkdir, hf, hc]
    · simp [sysMkdir, hf, hc]

/-- Path lookup depends on the current namespace, the caller and the files. -/
theorem resolve_congr (w v : World) (q : String) (hc : v.cur = w.cur)
    (hl : v.leaderNs = w.leaderNs)
    (hp : v.pid = w.pid) (ht : v.tid = w.tid) (hq : v.files q = w.files q) :
    resolve v q = resolve w q := by
  simp [resolve, isProcNs, procNs, selfNs, threadNetNs, hc, hl, hp, ht, hq]

theorem sysMkdir_leaderNs (p : String) (m : Nat) (w : World) :
    (sysMkdir p m w).2.leaderNs = w.leaderNs := by
  cases hf : nextFault w with
  | some e => simp [sysMkdir, hf]
  | none =>
    by_cases hc : (isProcNs w p || (w.files p).isSome) = true
    · simp [sysMkdir, hf, hc]
    · simp [sysMkdir, hf, hc]

theorem isProcNs_congr (w v : World) (q : String)
    (hp : v.pid = w.pid) (ht : v.tid = w.tid) : isProcNs v q = isProcNs w q := by
  simp [isProcNs, threadNetNs, hp, ht]

theorem resolve_none_iff (w : World) (q : String) :
    resolve w q = none ↔ isProcNs w q = false ∧ w.files q = none := by
  unfold resolve
  cases hp : isProcNs w q with
  | true => simp
  | false =>
    cases hq : w.files q with
    | none => simp
    | some n => cases hm : n.mounts <;> simp [hm]

/-- The call `mkdir` either leaves the files as they were or adds a directory
at a path that did not exist. -/
theorem sysMkdir_files (p : String) (m : Nat) (w : World) :
    (sysMkdir p m w).2.files = w.files ∨
    (resolve w p = none ∧
      (sysMkdir p m w).2.files = setFile w.files p (some ⟨w.nextIno, true, []⟩)) := by
  cases hf : nextFault w with
  | some e => simp [sysMkdir, hf]
  | none =>
    by_cases hc : (isProcNs w p || (w.files p).isSome) = true
    · simp [sysMkdir, hf, hc]
    · right
      constructor
      · rw [resolve_none_iff]
        cases h1 : isProcNs w p <;> cases h2 : w.files p <;> simp [h1, h2] at hc ⊢
      · simp [sysMkdir, hf, hc]

/-- The call `mkdir` leaves every existing path as it was. -/
theorem sysMkdir_files_of_exists (p : String) (m : Nat) (w : World) (q : String)
    (h : resolve w q ≠ none) : (sysMkdir p m w).2.files q = w.files q := by
  rcases sysMkdir_files p m w with h1 | ⟨h1, h2⟩
  · rw [h1]
  · rw [h2]
    have hqp : q ≠ p := by
      intro he
      subst he
      exact h h1
    simp [setFile, hqp]

theorem sysMkdir_resolve (p : String) (m : Nat) (w : World) (q : String)
    (h : resolve w q ≠ none) : resolve (sysMkdir p m w).2 q = resolve w q := by
  have hfr := sysMkdir_frame p m w
  exact resolve_congr w _ q hfr.1 (sysMkdir_leaderNs p m w) hfr.2.2.2.1 hfr.2.2.2.2.1
    (sysMkdir_files_of_exists p m w q h)

/-- The call `mkdir` never removes a path. -/
theorem sysMkdir_resolve_none (p : String) (m : Nat) (w : World) (q : String)
    (h : resolve (sysMkdir p m w).2 q = none) : resolve w q = none := by
  by_contra hne
  rw [sysMkdir_resolve p m w q hne] at h
  exact hne h

/-- What `unshare` leaves alone. -/
theorem sysUnshare_frame (fl : Nat) (w : World) :
    (sysUnshare fl w).2.fds = w.fds ∧ (sysUnshare fl w).2.files = w.files ∧
    (sysUnshare fl w).2.pid = w.pid ∧ (sysUnshare fl w).2.tid = w.tid ∧
    (sysUnshare fl w).2.faults = w.faults.tail ∧
    (sysUnshare fl w).2.trace = w.trace ++ [Call.unshare fl] := by
  cases hf : nextFault w with
  | some e => simp [sysUnshare, hf]
  | none =>
    by_cases hc : hasFlag fl CLONE_NEWNET = true
    · simp [sysUnshare, hf, hc]
    · simp [sysUnshare, hf, hc]

/-- What `setns` leaves alone. -/
theorem sysSetns_frame (fd : Int) (t : Nat) (w : World) :
    (sysSetns fd t w).2.fds = w.fds ∧ (sysSetns fd t w).2.files = w.files ∧
    (sysSetns fd t w).2.pid = w.pid ∧ (sysSetns fd t w).2.tid = w.tid ∧
    (sysSetns fd t w).2.nextNs = w.nextNs ∧
    (sysSetns fd t w).2.faults = w.faults.tail ∧
    (sysSetns fd t w).2.trace = w.trace ++ [Call.setns fd t] := by
  cases hf : nextFault w with
  | some e => simp [sysSetns, hf]
  | none =>
    cases hg : fdGet w.fds fd with
    | none => simp [sysSetns, hf, hg]
    | some i => cases i <;> simp [sysSetns, hf, hg]

/-- A successful `setns` puts the thread into the namespace the descriptor
refers to; a failed one leaves the thread where it was. -/
theorem sysSetns_result (fd : Int) (t : Nat) (w : World) :
    ((sysSetns fd t w).1 = none →
      fdGet w.fds fd = some (.netns (sysSetns fd t w).2.cur)) ∧
    ((sysSetns fd t w).1 ≠ none → (sysSetns fd t w).2.cur = w.cur) := by
  cases hf : nextFault w with
  | some e => simp [sysSetns, hf]
  | none =>
    cases hg : fdGet w.fds fd with
    | none => simp [sysSetns, hf, hg]
    | some i => cases i <;> simp [sysSetns, hf, hg]

/-- With no injected failure `setns` on a namespace descriptor succeeds. -/
theorem sysSetns_of_netns (fd : Int) (t : Nat) (w : World) (n : Nat)
    (hf : nextFault w = none) (hg : fdGet w.fds fd = some (.netns n)) :
    (sysSetns fd t w).1 = none ∧ (sysSetns fd t w).2.cur = n := by
  simp [sysSetns, hf, hg]

/-- What `mount` leaves alone. -/
theorem sysMount_frame (src tgt ty : String) (fl : Nat) (d : String) (w : World) :
    (sysMount src tgt ty fl d w).2.fds = w.fds ∧
    (sysMount src tgt ty fl d w).2.cur = w.cur ∧
    (sysMount src tgt ty fl d w).2.nextNs = w.nextNs ∧
    (sysMount src tgt ty fl d w).2.pid = w.pid ∧
    (sysMount src tgt ty fl d w).2.tid = w.tid ∧
    (sysMount src tgt ty fl d w).2.faults = w.faults.tail ∧
    (sysMount src tgt ty fl d w).2.trace = w.trace ++ [Call.mount src tgt fl] := by
  cases hf : nextFault w with
  | some e => simp [sysMount, hf]
  | none =>
    by_cases hb : hasFlag fl MS_BIND = true
    · cases hr : resolve w src with
      | none => simp [sysMount, hf, hb, hr]
      | some i =>
        cases hp : isProcNs w tgt with
        | true => simp [sysMount, hf, hb, hr, hp]
        | false => cases hn : w.files tgt <;> simp [sysMount, hf, hb, hr, hp, hn]
    · simp [sysMount, hf, hb]

/-- A successful bind mount puts what the source resolves to on top of the
target; a failed one leaves the files as they were. -/
theorem sysMount_result (src tgt ty : String) (d : String) (w : World) :
    ((sysMount src tgt ty MS_BIND d w).1 = none →
      isProcNs w tgt = false ∧
      ∃ i n, resolve w src = some i ∧ w.files tgt = some n ∧
        (sysMount src tgt ty MS_BIND d w).2.files =
          setFile w.files tgt (some { n with mounts := i :: n.mounts })) ∧
    ((sysMount src tgt ty MS_BIND d w).1 ≠ none →
      (sysMount src tgt ty MS_BIND d w).2.files = w.files) := by
  cases hf : nextFault w with
  | some e => simp [sysMount, hf]
  | none =>
    cases hr : resolve w src with
    | none => simp [sysMount, hf, hasFlag_bind, hr]
    | some i =>
      cases hp : isProcNs w tgt with
      | true => simp [sysMount, hf, hasFlag_bind, hr, hp]
      | false => cases hn : w.files tgt <;> simp [sysMount, hf, hasFlag_bind, hr, hp, hn]

/-- What `umount2` leaves alone. -/
theorem sysUnmount_frame (tgt : String) (fl : Nat) (w : World) :
    (sysUnmount tgt fl w).2.fds = w.fds ∧ (sysUnmount tgt fl w).2.cur = w.cur ∧
    (sysUnmount tgt fl w).2.nextNs = w.nextNs ∧ (sysUnmount tgt fl w).2.pid = w.pid ∧
    (sysUnmount tgt fl w).2.tid = w.tid ∧
    (sysUnmount tgt fl w).2.faults = w.faults.tail ∧
    (sysUnmount tgt fl w).2.trace = w.trace ++ [Call.umount tgt fl] := by
  cases hf : nextFault w with
  | some e => simp [sysUnmount, hf]
  | none =>
    cases hp : isProcNs w tgt with
    | true => simp [sysUnmount, hf, hp]
    | false =>
      cases hn : w.files tgt with
      | none => simp [sysUnmount, hf, hp, hn]
      | some n => cases hm : n.mounts <;> simp [sysUnmount, hf, hp, hn, hm]

/-- A successful `umount2` detaches the topmost mount; a failed one changes
nothing but the trace and the failure schedule. -/
theorem sysUnmount_result (tgt : String) (fl : Nat) (w : World) :
    ((sysUnmount tgt fl w).1 = none →
      isProcNs w tgt = false ∧
      ∃ n i rest, w.files tgt = some n ∧ n.mounts = i :: rest ∧
        (sysUnmount tgt fl w).2.files =
          setFile w.files tgt (some { n with mounts := rest })) ∧
    ((sysUnmount tgt fl w).1 ≠ none →
      (sysUnmount tgt fl w).2 = (w.enter (.umount tgt fl)).2) := by
  cases hf : nextFault w with
  | some e => simp [sysUnmount, hf]
  | none =>
    cases hp : isProcNs w tgt with
    | true => simp [sysUnmount, hf, hp]
    | false =>
      cases hn : w.files tgt with
      | none => simp [sysUnmount, hf, hp, hn]
      | some n =>
        cases hm : n.mounts with
        | nil => simp [sysUnmount, hf, hp, hn, hm]
        | cons i rest =>
          simp only [sysUnmount, enter_fst, hf, enter_isProcNs, hp, enter_files, hn, hm]
          exact ⟨fun _ => ⟨by simp, n, i, rest, rfl, hm, rfl⟩, fun h => absurd rfl h⟩

/-- With no injected failure `umount2` of a missing path is `ENOENT`. -/
theorem sysUnmount_enoent (tgt : String) (fl : Nat) (w : World)
    (hf : nextFault w = none) (hr : resolve w tgt = none) :
    (sysUnmount tgt fl w).1 = some (.errno .ENOENT) := by
  rw [resolve_none_iff] at hr
  simp [sysUnmount, hf, hr.1, hr.2]

/-- What `unlink` leaves alone. -/
theorem sysUnlink_frame (p : String) (w : World) :
    (sysUnlink p w).2.fds = w.fds ∧ (sysUnlink p w).2.cur = w.cur ∧
    (sysUnlink p w).2.nextNs = w.nextNs ∧ (sysUnlink p w).2.pid = w.pid ∧
    (sysUnlink p w).2.tid = w.tid ∧
    (sysUnlink p w).2.faults = w.faults.tail ∧
    (sysUnlink p w).2.trace = w.trace ++ [Call.unlink p] := by
  cases hf : nextFault w with
  | some e => simp [sysUnlink, hf]
  | none =>
    cases hp : isProcNs w p with
    | true => simp [sysUnlink, hf, hp]
    | false =>
      cases hn : w.files p with
      | none => simp [sysUnlink, hf, hp, hn]
      | some n =>
        by_cases hd : n.isDir = true
        · simp [sysUnlink, hf, hp, hn, hd]
        · by_cases hm : n.mounts = []
          · simp [sysUnlink, hf, hp, hn, hd, hm]
          · simp [sysUnlink, hf, hp, hn, hd, hm]

/-- A successful `unlink` removes the file; a failed one changes nothing but
the trace and the failure schedule. -/
theorem sysUnlink_result (p : String) (w : World) :
    ((sysUnlink p w).1 = none →
      isProcNs w p = false ∧ (sysUnlink p w).2.files = setFile w.files p none) ∧
    ((sysUnlink p w).1 ≠ none → (sysUnlink p w).2 = (w.enter (.unlink p)).2) := by
  cases hf : nextFault w with
  | some e => simp [sysUnlink, hf]
  | none =>
    cases hp : isProcNs w p with
    | true => simp [sysUnlink, hf, hp]
    | false =>
      cases hn : w.files p with
      | none => simp [sysUnlink, hf, hp, hn]
      | some n =>
        by_cases hd : n.isDir = true
        · simp [sysUnlink, hf, hp, hn, hd]
        · by_cases hm : n.mounts = []
          · simp [sysUnlink, hf, hp, hn, hd, hm]
          · simp [sysUnlink, hf, hp, hn, hd, hm]

theorem sysOpen_leaderNs (p : String) (fl m : Nat) (w : World) :
    (sysOpen p fl m w).2.leaderNs = w.leaderNs := by
  unfold sysOpen; dsimp only; split
  · rfl
  · split <;> split <;> rfl

theorem sysClose_leaderNs (fd : Int) (w : World) :
    (sysClose fd w).2.leaderNs = w.leaderNs := by
  cases hf : nextFault w with
  | some e => simp [sysClose, hf]
  | none =>
    cases hg : fdGet w.fds fd with
    | none => simp [sysClose, hf, hg]
    | some i => simp [sysClose, hf, hg]

theorem sysUnshare_leaderNs (fl : Nat) (w : World) :
    (sysUnshare fl w).2.leaderNs = w.leaderNs := by
  cases hf : nextFault w with
  | some e => simp [sysUnshare, hf]
  | none =>
    by_cases hc : hasFlag fl CLONE_NEWNET = true
    · simp [sysUnshare, hf, hc]
    · simp [sysUnshare, hf, hc]

theorem sysMount_leaderNs (src tgt ty : String) (fl : Nat) (d : String) (w : World) :
    (sysMount src tgt ty fl d w).2.leaderNs = w.leaderNs := by
  cases hf : nextFault w with
  | some e => simp [sysMount, hf]
  | none =>
    by_cases hb : hasFlag fl MS_BIND = true
    · cases hr : resolve w src with
      | none => simp [sysMount, hf, hb, hr]
      | some i =>
        cases hp : isProcNs w tgt with
        | true => simp [sysMount, hf, hb, hr, hp]
        | false => cases hn : w.files tgt <;> simp [sysMount, hf, hb, hr, hp, hn]
    · simp [sysMount, hf, hb]

/-! ## Lookup by name -/

theorem GetByName_eq (name : String) (w : World) :
    (GetByName name w).2 = (sysOpen (pathJoin NsRunDir name) O_RDONLY 0 w).2 ∧
    (GetByName name w).1.2 = (sysOpen (pathJoin NsRunDir name) O_RDONLY 0 w).1.2 ∧
    (GetByName name w).1.1.Name = name ∧
    ((GetByName name w).1.2 = none →
      (GetByName name w).1.1.Handle = (sysOpen (pathJoin NsRunDir name) O_RDONLY 0 w).1.1) ∧
    ((GetByName name w).1.2 ≠ none → (GetByName name w).1.1.Handle = -1) := by
  unfold GetByName GetHandleByName vnetns.GetFromPath
  by_cases h : (sysOpen (pathJoin NsRunDir name) O_RDONLY 0 w).1.2 = none
  · simp [h]
  · simp [h]

/-! ## SetByName -/

/-- C1: `SetByName` looks the name up and then does one of three things.
When the lookup succeeds it issues `setns` on the found handle and returns the
found descriptor with the error of the switch; a successful switch leaves the
thread in the namespace of that handle.  When the lookup error is classified
by `IsNotExist` it returns what `NewByName` returns.  For any other lookup
error it returns the descriptor and error of the lookup, and the only system
call issued is the `open` of the lookup: the current namespace, the files and
the namespace counter are as before. -/
theorem SetByName_lookup_then_three_cases (name : String) (w : World) :
    (SetByName name w =
      if (GetByName name w).1.2 = none then
        (((GetByName name w).1.1,
            (SetByHandle (GetByName name w).1.1.Handle (GetByName name w).2).1),
          (SetByHandle (GetByName name w).1.1.Handle (GetByName name w).2).2)
      else if IsNotExist (GetByName name w).1.2 = true then
        NewByName name (GetByName name w).2
      else GetByName name w) ∧
    ((GetByName name w).1.2 = none →
      (SetByName name w).2.trace =
        w.trace ++ [Call.openat (pathJoin NsRunDir name) O_RDONLY,
          Call.setns (GetByName name w).1.1.Handle CLONE_NEWNET] ∧
      ((SetByName name w).1.2 = none →
        fdGet (SetByName name w).2.fds (SetByName name w).1.1.Handle =
          some (.netns (SetByName name w).2.cur)) ∧
      ((SetByName name w).1.2 ≠ none → (SetByName name w).2.cur = w.cur)) ∧
    ((GetByName name w).1.2 ≠ none → IsNotExist (GetByName name w).1.2 = false →
      (SetByName name w).1.2 = (GetByName name w).1.2 ∧
      (SetByName name w).2.trace =
        w.trace ++ [Call.openat (pathJoin NsRunDir name) O_RDONLY] ∧
      (SetByName name w).2.cur = w.cur ∧
      (SetByName name w).2.nextNs = w.nextNs ∧
      (SetByName name w).2.files = w.files) := by
  have hg := GetByName_eq name w
  refine ⟨?_, ?_, ?_⟩
  · unfold SetByName
    by_cases h : (GetByName name w).1.2 = none
    · simp [h, NsDesc.Set]
    · by_cases h2 : IsNotExist (GetByName name w).1.2 = true
      · simp [h, h2]
      · simp [h, h2]
  · intro h
    have hs : SetByName name w =
        (((GetByName name w).1.1,
            (SetByHandle (GetByName name w).1.1.Handle (GetByName name w).2).1),
          (SetByHandle (GetByName name w).1.1.Handle (GetByName name w).2).2) := by
      unfold SetByName
      simp [h, NsDesc.Set]
    rw [hs]
    simp only [SetByHandle, vnetns.Set]
    have hfr := sysSetns_frame (GetByName name w).1.1.Handle CLONE_NEWNET (GetByName name w).2
    have hres := sysSetns_result (GetByName name w).1.1.Handle CLONE_NEWNET (GetByName name w).2
    refine ⟨?_, ?_, ?_⟩
    · rw [hfr.2.2.2.2.2.2, hg.1, sysOpen_trace]
      simp
    · intro he
      rw [hfr.1]
      exact hres.1 he
    · intro he
      rw [hres.2 he, hg.1, sysOpen_cur]
  · intro h h2
    have hs : SetByName name w = GetByName name w := by
      unfold SetByName
      simp [h, h2]
    rw [hs]
    refine ⟨rfl, ?_, ?_, ?_, ?_⟩
    · rw [hg.1, sysOpen_trace]
    · rw [hg.1, sysOpen_cur]
    · rw [hg.1, sysOpen_nextNs]
    · rw [hg.1, sysOpen_rdonly_files]

/-! ## DeleteByName -/

/-- When the unmount fails `DeleteByName` stops there. -/
theorem DeleteByName_of_unmount_fails (name : String) (w : World)
    (h : (sysUnmount (pathJoin NsRunDir name) MNT_DETACH w).1 ≠ none) :
    DeleteByName name w =
      (Errorf ("CloseByName(" ++ name ++ "): " ++ "Unmount(): " ++
          Sprint (sysUnmount (pathJoin NsRunDir name) MNT_DETACH w).1),
        (sysUnmount (pathJoin NsRunDir name) MNT_DETACH w).2) := by
  unfold DeleteByName
  simp [h]

/-- A nil result of `DeleteByName` means both the unmount and the unlink
succeeded. -/
theorem DeleteByName_ok (name : String) (w : World) (h : (DeleteByName name w).1 = none) :
    (sysUnmount (pathJoin NsRunDir name) MNT_DETACH w).1 = none ∧
    (sysUnlink (pathJoin NsRunDir name)
      (sysUnmount (pathJoin NsRunDir name) MNT_DETACH w).2).1 = none ∧
    (DeleteByName name w).2 =
      (sysUnlink (pathJoin NsRunDir name)
        (sysUnmount (pathJoin NsRunDir name) MNT_DETACH w).2).2 := by
  unfold DeleteByName at h ⊢
  by_cases h1 : (sysUnmount (pathJoin NsRunDir name) MNT_DETACH w).1 = none
  · by_cases h2 : (sysUnlink (pathJoin NsRunDir name)
        (sysUnmount (pathJoin NsRunDir name) MNT_DETACH w).2).1 = none
    · simp [h1, h2]
    · simp [h1, h2, Errorf] at h
  · simp [h1, Errorf] at h

/-- Every error `DeleteByName` returns is a string error that starts with the
banner, so `IsNotExist` never classifies it as not-exist. -/
theorem DeleteByName_never_notExist (name : String) (w : World) :
    IsNotExist (DeleteByName name w).1 = false := by
  unfold DeleteByName
  by_cases h1 : (sysUnmount (pathJoin NsRunDir name) MNT_DETACH w).1 = none
  · by_cases h2 : (sysUnlink (pathJoin NsRunDir name)
        (sysUnmount (pathJoin NsRunDir name) MNT_DETACH w).2).1 = none
    · simp [h1, h2, IsNotExist, Sprint]
    · simp only [h1, h2, ne_eq, not_true_eq_false, if_false, not_false_eq_true, if_true,
        IsNotExist, Errorf, Sprint, GoError.Error, String.append_assoc]
      simp [closeBanner_ne]
  · simp only [h1, ne_eq, not_false_eq_true, if_true,
      IsNotExist, Errorf, Sprint, GoError.Error, String.append_assoc]
    simp [closeBanner_ne]

/-- After a successful `DeleteByName` nothing is left at the registry path. -/
theorem DeleteByName_ok_removes (name : String) (w : World)
    (h : (DeleteByName name w).1 = none) :
    w.files (pathJoin NsRunDir name) ≠ none ∧
    (DeleteByName name w).2.files (pathJoin NsRunDir name) = none ∧
    resolve (DeleteByName name w).2 (pathJoin NsRunDir name) = none := by
  obtain ⟨h1, h2, h3⟩ := DeleteByName_ok name w h
  have hu := (sysUnmount_result (pathJoin NsRunDir name) MNT_DETACH w).1 h1
  have hl := (sysUnlink_result (pathJoin NsRunDir name)
    (sysUnmount (pathJoin NsRunDir name) MNT_DETACH w).2).1 h2
  have hfu := sysUnmount_frame (pathJoin NsRunDir name) MNT_DETACH w
  have hfl := sysUnlink_frame (pathJoin NsRunDir name)
    (sysUnmount (pathJoin NsRunDir name) MNT_DETACH w).2
  obtain ⟨hp, n, i, rest, hn, _, _⟩ := hu
  have hfile : (DeleteByName name w).2.files (pathJoin NsRunDir name) = none := by
    rw [h3, hl.2]
    simp [setFile]
  refine ⟨by simp [hn], hfile, ?_⟩
  rw [resolve_none_iff]
  refine ⟨?_, hfile⟩
  rw [h3, isProcNs_congr _ _ _ hfl.2.2.2.1 hfl.2.2.2.2.1]
  exact hl.1

/-- C4: after a successful `DeleteByName` no file is left at the registry path
of the name (an entry was there before), and the next `GetByName` of the name
fails; unless some other failure is injected into that lookup its error is
`ENOENT`, which `IsNotExist` classifies as not-exist. -/
theorem DeleteByName_then_GetByName_notExist (name : String) (w : World)
    (h : (DeleteByName name w).1 = none) :
    w.files (pathJoin NsRunDir name) ≠ none ∧
    (DeleteByName name w).2.files (pathJoin NsRunDir name) = none ∧
    resolve (DeleteByName name w).2 (pathJoin NsRunDir name) = none ∧
    (GetByName name (DeleteByName name w).2).1.2 ≠ none ∧
    (nextFault (DeleteByName name w).2 = none →
      (GetByName name (DeleteByName name w).2).1.2 = some (.errno .ENOENT) ∧
      IsNotExist (GetByName name (DeleteByName name w).2).1.2 = true) := by
  obtain ⟨h1, h2, h3⟩ := DeleteByName_ok_removes name w h
  have hg := GetByName_eq name (DeleteByName name w).2
  refine ⟨h1, h2, h3, ?_, ?_⟩
  · rw [hg.2.1]
    exact sysOpen_rdonly_missing _ _ _ h3
  · intro hf
    have he := sysOpen_rdonly_enoent (pathJoin NsRunDir name) 0 _ hf h3
    rw [hg.2.1, he]
    exact ⟨rfl, by decide⟩

/-- C5 (as amended): for a name with nothing at its registry path the unmount
fails and `DeleteByName` fails with it, leaving the files as they were.  The
failure does not reach the caller in kind: the returned error is a new string
error, the banner followed by "Unmount(): " and the text of the unmount
failure (so "no such file or directory" when that failure is `ENOENT`), and
`IsNotExist` does not classify it as not-exist. -/
theorem DeleteByName_missing_wrapped (name : String) (w : World)
    (hr : resolve w (pathJoin NsRunDir name) = none) :
    (sysUnmount (pathJoin NsRunDir name) MNT_DETACH w).1 ≠ none ∧
    (DeleteByName name w).1 =
      some (.text ("CloseByName(" ++ name ++ "): " ++ "Unmount(): " ++
        Sprint (sysUnmount (pathJoin NsRunDir name) MNT_DETACH w).1)) ∧
    ((sysUnmount (pathJoin NsRunDir name) MNT_DETACH w).1 = some (.errno .ENOENT) →
      (DeleteByName name w).1 =
        some (.text ("CloseByName(" ++ name ++ "): " ++ "Unmount(): " ++
          "no such file or directory"))) ∧
    IsNotExist (DeleteByName name w).1 = false ∧
    (DeleteByName name w).2.files = w.files := by
  have hu : (sysUnmount (pathJoin NsRunDir name) MNT_DETACH w).1 ≠ none := by
    intro h0
    obtain ⟨_, n, _, _, hn, _, _⟩ :=
      (sysUnmount_result (pathJoin NsRunDir name) MNT_DETACH w).1 h0
    rw [resolve_none_iff] at hr
    rw [hr.2] at hn
    exact absurd hn (by simp)
  have hd := DeleteByName_of_unmount_fails name w hu
  refine ⟨hu, ?_, ?_, DeleteByName_never_notExist name w, ?_⟩
  · rw [hd]; rfl
  · intro he
    rw [hd, he]
    rfl
  · rw [hd, (sysUnmount_result (pathJoin NsRunDir name) MNT_DETACH w).2 hu]
    rfl

/-- C6 (as amended): when the unmount fails `DeleteByName` returns the unmount
failure behind its banner and issues no further system call: the only call is
the `umount2`, and the files are as they were. -/
theorem DeleteByName_unmount_failure_stops (name : String) (w : World)
    (h : (sysUnmount (pathJoin NsRunDir name) MNT_DETACH w).1 ≠ none) :
    (DeleteByName name w).1 =
      some (.text ("CloseByName(" ++ name ++ "): " ++ "Unmount(): " ++
        Sprint (sysUnmount (pathJoin NsRunDir name) MNT_DETACH w).1)) ∧
    (DeleteByName name w).2.trace =
      w.trace ++ [Call.umount (pathJoin NsRunDir name) MNT_DETACH] ∧
    Call.unlink (pathJoin NsRunDir name) ∉
      ((DeleteByName name w).2.trace.drop w.trace.length) ∧
    (DeleteByName name w).2.files = w.files := by
  have hd := DeleteByName_of_unmount_fails name w h
  have hw := (sysUnmount_result (pathJoin NsRunDir name) MNT_DETACH w).2 h
  refine ⟨?_, ?_, ?_, ?_⟩
  · rw [hd]; rfl
  · rw [hd, hw]; rfl
  · rw [hd, hw]
    simp
  · rw [hd, hw]; rfl

/-! ## Close and Delete of a descriptor -/

theorem Close_eq (d : NsDesc) (w : World) :
    (d.Close w).2 = (sysClose d.Handle w).2 ∧
    (d.Close w).1.1 = (sysClose d.Handle w).1 ∧
    (d.Close w).1.2.Name = d.Name ∧
    ((d.Close w).1.1 = none → (d.Close w).1.2.Handle = -1) ∧
    ((d.Close w).1.1 ≠ none → (d.Close w).1.2.Handle = d.Handle) := by
  unfold NsDesc.Close vnetns.Close
  by_cases h : (sysClose d.Handle w).1 = none
  · simp [h]
  · simp [h]

/-- C10 (as amended): `Delete` first closes the handle of the descriptor and
then runs `DeleteByName` on its name, in the world the close left, and returns
exactly that result whatever the close returned; so a descriptor that is
already closed (handle `-1`, on which the close fails) is still deleted
whenever `DeleteByName` succeeds, and stays not-open.  The close touches no
file, a nil result leaves nothing at the registry path, and afterwards the
descriptor reports not-open exactly when the close succeeded or its handle was
`-1` before. -/
theorem Delete_closes_then_DeleteByName (d : NsDesc) (w : World) :
    (d.Delete w).1.1 = (DeleteByName d.Name (d.Close w).2).1 ∧
    (d.Delete w).2 = (DeleteByName d.Name (d.Close w).2).2 ∧
    (d.Delete w).1.2 = (d.Close w).1.2 ∧
    (d.Close w).2.trace = w.trace ++ [Call.close d.Handle] ∧
    (d.Close w).2.files = w.files ∧
    ((d.Delete w).1.1 = none →
      (d.Delete w).2.files (pathJoin NsRunDir d.Name) = none) ∧
    (d.Delete w).1.2.Name = d.Name ∧
    (d.Handle = -1 → (d.Close w).1.1 ≠ none ∧ (d.Delete w).1.2.IsOpen = false) ∧
    ((d.Delete w).1.2.IsOpen = false ↔ ((d.Close w).1.1 = none ∨ d.Handle = -1)) := by
  have hc := Close_eq d w
  have hfr := sysClose_frame d.Handle w
  have hname : (d.Delete w).1.2.Name = d.Name := hc.2.2.1
  have hiff : (d.Delete w).1.2.IsOpen = false ↔ ((d.Close w).1.1 = none ∨ d.Handle = -1) := by
    show vnetns.IsOpen (d.Close w).1.2.Handle = false ↔ _
    by_cases h : (d.Close w).1.1 = none
    · simp [hc.2.2.2.1 h, h, vnetns.IsOpen]
    · simp [hc.2.2.2.2 h, h, vnetns.IsOpen]
  refine ⟨?_, ?_, rfl, ?_, ?_, ?_, hname, ?_, hiff⟩
  · show (DeleteByName (d.Close w).1.2.Name (d.Close w).2).1 = _
    rw [hc.2.2.1]
  · show (DeleteByName (d.Close w).1.2.Name (d.Close w).2).2 = _
    rw [hc.2.2.1]
  · rw [hc.1, hfr.2.2.2.2.2.2.2]
  · rw [hc.1, hfr.2.2.1]
  · intro h
    have h2 : (DeleteByName d.Name (d.Close w).2).1 = none := by
      have : (d.Delete w).1.1 = (DeleteByName (d.Close w).1.2.Name (d.Close w).2).1 := rfl
      rw [hc.2.2.1] at this
      rw [← this]; exact h
    have h3 : (d.Delete w).2 = (DeleteByName d.Name (d.Close w).2).2 := by
      show (DeleteByName (d.Close w).1.2.Name (d.Close w).2).2 = _
      rw [hc.2.2.1]
    rw [h3]
    exact (DeleteByName_ok_removes d.Name _ h2).2.1
  · intro h
    have hbad : (d.Close w).1.1 ≠ none := by
      rw [hc.2.1]
      apply (sysClose_result d.Handle w).2.2
      rw [h]
      rfl
    exact ⟨hbad, hiff.mpr (Or.inr h)⟩

/-! ## NewByName -/

/-- When the exclusive create fails `NewByName` stops there. -/
theorem NewByName_of_create_fails (name : String) (w : World)
    (h : (sysOpen (pathJoin NsRunDir name) (O_RDONLY ||| O_CREAT ||| O_EXCL) 0
      (sysMkdir NsRunDir 0o755 w).2).1.2 ≠ none) :
    NewByName name w =
      ((⟨0, name⟩, Errorf ("NewByName(" ++ name ++ "): " ++
          Sprint (sysOpen (pathJoin NsRunDir name) (O_RDONLY ||| O_CREAT ||| O_EXCL) 0
            (sysMkdir NsRunDir 0o755 w).2).1.2)),
        ((sysMkdir NsRunDir 0o755 w).2.enter
          (.openat (pathJoin NsRunDir name) (O_RDONLY ||| O_CREAT ||| O_EXCL))).2) := by
  unfold NewByName
  simp only [h, ne_eq, not_false_eq_true, if_true]
  rw [sysOpen_fail_world _ _ _ _ h]

/-- C7: when something already exists at the registry path of the name,
`NewByName` fails, and unless some other failure is injected into its `open`
the error reads "file exists" behind the banner.  The only system calls are
the `mkdir` of the registry directory and the exclusive `open`: no namespace
is allocated, the thread stays in its namespace, nothing is mounted, the
descriptor table is untouched, and every existing path, the registry entry
included, is left as it was. -/
theorem NewByName_existing_fails_without_effect (name : String) (w : World)
    (h : resolve w (pathJoin NsRunDir name) ≠ none) :
    (NewByName name w).1.2 ≠ none ∧
    (nextFault (sysMkdir NsRunDir 0o755 w).2 = none →
      (NewByName name w).1.2 =
        some (.text ("NewByName(" ++ name ++ "): " ++ "file exists"))) ∧
    (NewByName name w).2.trace =
      w.trace ++ [Call.mkdir NsRunDir,
        Call.openat (pathJoin NsRunDir name) (O_RDONLY ||| O_CREAT ||| O_EXCL)] ∧
    (NewByName name w).2.nextNs = w.nextNs ∧
    (NewByName name w).2.cur = w.cur ∧
    (NewByName name w).2.fds = w.fds ∧
    (NewByName name w).2.files (pathJoin NsRunDir name) =
      w.files (pathJoin NsRunDir name) ∧
    resolve (NewByName name w).2 (pathJoin NsRunDir name) =
      resolve w (pathJoin NsRunDir name) ∧
    (∀ q, resolve w q ≠ none → (NewByName name w).2.files q = w.files q) := by
  have hm := sysMkdir_frame NsRunDir 0o755 w
  have hr : resolve (sysMkdir NsRunDir 0o755 w).2 (pathJoin NsRunDir name) ≠ none := by
    rw [sysMkdir_resolve _ _ _ _ h]; exact h
  have hx := sysOpen_excl_exists (pathJoin NsRunDir name) 0 _ hr
  have hn := NewByName_of_create_fails name w hx.1
  have hfiles : ∀ q, resolve w q ≠ none → (NewByName name w).2.files q = w.files q := by
    intro q hq
    rw [hn]
    exact sysMkdir_files_of_exists _ _ _ _ hq
  refine ⟨?_, ?_, ?_, ?_, ?_, ?_, hfiles _ h, ?_, hfiles⟩
  · rw [hn]; simp [Errorf]
  · intro hf
    rw [hn, hx.2 hf]
    rfl
  · rw [hn, enter_trace, hm.2.2.2.2.2.2]
    simp
  · rw [hn, enter_nextNs, hm.2.1]
  · rw [hn, enter_cur, hm.1]
  · rw [hn, enter_fds, hm.2.2.1]
  · have hc : (NewByName name w).2.cur = w.cur := by rw [hn, enter_cur, hm.1]
    have hp : (NewByName name w).2.pid = w.pid := by rw [hn, enter_pid, hm.2.2.2.1]
    have ht : (NewByName name w).2.tid = w.tid := by rw [hn, enter_tid, hm.2.2.2.2.1]
    have hl : (NewByName name w).2.leaderNs = w.leaderNs := by
      rw [hn, enter_leaderNs, sysMkdir_leaderNs]
    exact resolve_congr w _ _ hc hl hp ht (hfiles _ h)

/-- The path `/proc/self/ns/net` denotes the namespace of the calling thread
when the caller is the thread-group leader. -/
theorem resolve_SelfNetNs_of_leader (w : World) (h : w.tid = w.pid) :
    resolve w SelfNetNs = some (.netns w.cur) := by
  simp [resolve, isProcNs, procNs, selfNs, h]

theorem resolve_threadNetNs (w : World) :
    resolve w (threadNetNs w) = some (.netns w.cur) := by
  simp [resolve, isProcNs, procNs]

/-- An open descriptor is never `-1`. -/
theorem ne_neg_one_of_fdGet (t : List (Option Inode)) (fd : Int) (x : Inode)
    (h : fdGet t fd = some x) : fd ≠ -1 := by
  intro he
  subst he
  simp [fdGet] at h

theorem Get_eq (w : World) :
    (vnetns.Get w).2 = (sysOpen (threadNetNs w) O_RDONLY 0 w).2 ∧
    (vnetns.Get w).1.2 = (sysOpen (threadNetNs w) O_RDONLY 0 w).1.2 ∧
    ((vnetns.Get w).1.2 = none →
      (vnetns.Get w).1.1 = (sysOpen (threadNetNs w) O_RDONLY 0 w).1.1) := by
  unfold vnetns.Get vnetns.GetFromThread vnetns.GetFromPath
  by_cases h : (sysOpen (threadNetNs w) O_RDONLY 0 w).1.2 = none
  · simp [h]
  · simp [h]

/-- The handle `Get` returns refers to the namespace the thread is in; `Get`
changes neither that namespace nor the files. -/
theorem Get_spec (w : World) :
    (vnetns.Get w).2.cur = w.cur ∧ (vnetns.Get w).2.nextNs = w.nextNs ∧
    (vnetns.Get w).2.files = w.files ∧ (vnetns.Get w).2.pid = w.pid ∧
    (vnetns.Get w).2.tid = w.tid ∧
    (∀ a x, fdGet w.fds a = some x → fdGet (vnetns.Get w).2.fds a = some x) ∧
    ((vnetns.Get w).1.2 = none →
      fdGet (vnetns.Get w).2.fds (vnetns.Get w).1.1 = some (.netns w.cur)) := by
  have hg := Get_eq w
  refine ⟨?_, ?_, ?_, ?_, ?_, ?_, ?_⟩
  · rw [hg.1, sysOpen_cur]
  · rw [hg.1, sysOpen_nextNs]
  · rw [hg.1, sysOpen_rdonly_files]
  · rw [hg.1, sysOpen_pid]
  · rw [hg.1, sysOpen_tid]
  · intro a x h
    rw [hg.1]
    exact sysOpen_fd_of_some _ _ _ _ _ _ h
  · intro h
    have h2 : (sysOpen (threadNetNs w) O_RDONLY 0 w).1.2 = none := by rw [← hg.2.1]; exact h
    rw [hg.2.2 h, hg.1, (sysOpen_rdonly_ok _ _ _ h2).2, resolve_threadNetNs]

/-- The function `New`: on success the thread is in a namespace that did not
exist before and the returned handle refers to it. -/
theorem New_spec (w : World) :
    (New w).2.files = w.files ∧ (New w).2.pid = w.pid ∧ (New w).2.tid = w.tid ∧
    (∀ a x, fdGet w.fds a = some x → fdGet (New w).2.fds a = some x) ∧
    ((New w).1.2 = none →
      (New w).2.cur = w.nextNs ∧
      fdGet (New w).2.fds (New w).1.1 = some (.netns w.nextNs)) := by
  have hu := sysUnshare_frame CLONE_NEWNET w
  unfold New vnetns.New
  by_cases h : (sysUnshare CLONE_NEWNET w).1 = none
  · have hg := Get_spec (sysUnshare CLONE_NEWNET w).2
    have hcur : (sysUnshare CLONE_NEWNET w).2.cur = w.nextNs := by
      cases hf : nextFault w with
      | some e => simp [sysUnshare, hf] at h
      | none => simp [sysUnshare, hf, hasFlag_newnet]
    simp only [h, ne_eq, not_true_eq_false, if_false]
    refine ⟨?_, ?_, ?_, ?_, ?_⟩
    · rw [hg.2.2.1, hu.2.1]
    · rw [hg.2.2.2.1, hu.2.2.1]
    · rw [hg.2.2.2.2.1, hu.2.2.2.1]
    · intro a x ha
      apply hg.2.2.2.2.2.1
      rw [hu.1]; exact ha
    · intro hok
      refine ⟨?_, ?_⟩
      · rw [hg.1, hcur]
      · rw [hg.2.2.2.2.2.2 hok, hcur]
  · simp only [h, ne_eq, not_false_eq_true, if_true]
    refine ⟨hu.2.1, hu.2.2.1, hu.2.2.2.1, ?_, ?_⟩
    · intro a x ha
      rw [hu.1]; exact ha
    · intro hok
      exact hok.elim

theorem New_leaderNs (w : World) : (New w).2.leaderNs = w.leaderNs := by
  unfold New vnetns.New
  by_cases h : (sysUnshare CLONE_NEWNET w).1 = none
  · simp only [h, ne_eq, not_true_eq_false, if_false]
    rw [(Get_eq _).1, sysOpen_leaderNs, sysUnshare_leaderNs]
  · simp only [h, ne_eq, not_false_eq_true, if_true]
    exact sysUnshare_leaderNs _ _

/-- Every descriptor that is open before `NewByName` is open afterwards, with
the same target, on every path through the function. -/
theorem NewByName_fd_of_some (name : String) (w : World) (a : Int) (x : Inode)
    (h : fdGet w.fds a = some x) : fdGet (NewByName name w).2.fds a = some x := by
  have hm : fdGet (sysMkdir NsRunDir 0o755 w).2.fds a = some x := by
    rw [(sysMkdir_frame NsRunDir 0o755 w).2.2.1]; exact h
  have ho := sysOpen_fd_of_some (pathJoin NsRunDir name) (O_RDONLY ||| O_CREAT ||| O_EXCL) 0
    _ a x hm
  unfold NewByName
  by_cases h1 : (sysOpen (pathJoin NsRunDir name) (O_RDONLY ||| O_CREAT ||| O_EXCL) 0
      (sysMkdir NsRunDir 0o755 w).2).1.2 = none
  · have hfresh := sysOpen_fresh _ _ _ _ h1
    have hne : a ≠ (sysOpen (pathJoin NsRunDir name) (O_RDONLY ||| O_CREAT ||| O_EXCL) 0
        (sysMkdir NsRunDir 0o755 w).2).1.1 := by
      intro he
      rw [← he, hm] at hfresh
      cases hfresh
    have hc : fdGet (sysClose (sysOpen (pathJoin NsRunDir name)
        (O_RDONLY ||| O_CREAT ||| O_EXCL) 0 (sysMkdir NsRunDir 0o755 w).2).1.1
        (sysOpen (pathJoin NsRunDir name) (O_RDONLY ||| O_CREAT ||| O_EXCL) 0
          (sysMkdir NsRunDir 0o755 w).2).2).2.fds a = some x := by
      rw [sysClose_fd_of_ne _ _ _ hne]; exact ho
    have hn := (New_spec _).2.2.2.1 a x hc
    simp only [h1, ne_eq, not_true_eq_false, if_false]
    split
    · exact hn
    · split
      · rw [(sysMount_frame _ _ _ _ _ _).1]; exact hn
      · rw [(sysMount_frame _ _ _ _ _ _).1]; exact hn
  · simp only [h1, ne_eq, not_false_eq_true, if_true]
    exact ho

/-- Every descriptor that is open before `SetByName` is open afterwards,
with the same target. -/
theorem SetByName_fd_of_some (name : String) (w : World) (a : Int) (x : Inode)
    (h : fdGet w.fds a = some x) : fdGet (SetByName name w).2.fds a = some x := by
  have hg := GetByName_eq name w
  have h1 : fdGet (GetByName name w).2.fds a = some x := by
    rw [hg.1]; exact sysOpen_fd_of_some _ _ _ _ _ _ h
  unfold SetByName
  by_cases he : (GetByName name w).1.2 = none
  · simp only [he, if_true, NsDesc.Set, SetByHandle, vnetns.Set]
    rw [(sysSetns_frame _ _ _).1]; exact h1
  · by_cases h2 : IsNotExist (GetByName name w).1.2 = true
    · simp only [he, h2, if_false, if_true]
      exact NewByName_fd_of_some _ _ _ _ h1
    · simp only [he, h2, if_false]
      exact h1

/-! ## AddByName -/

/-- C2: whenever `AddByName` returns a nil error the calling thread is in the
same network namespace after the call as before it, whichever way the name was
obtained (found in the registry or newly created). -/
theorem AddByName_keeps_current_namespace (name : String) (w : World)
    (h : (AddByName name w).1.2 = none) : (AddByName name w).2.cur = w.cur := by
  have hg := Get_spec w
  unfold AddByName at h ⊢
  unfold GetMyHandle at h ⊢
  by_cases h1 : (vnetns.Get w).1.2 = none
  · by_cases h2 : (SetByName name (vnetns.Get w).2).1.2 = none
    · by_cases h3 : (SetByHandle (vnetns.Get w).1.1 (SetByName name (vnetns.Get w).2).2).1 = none
      · simp only [h1, h2, h3, ne_eq, not_true_eq_false, if_false]
        have hfd := SetByName_fd_of_some name _ _ _ (hg.2.2.2.2.2.2 h1)
        have hs := (sysSetns_result (vnetns.Get w).1.1 CLONE_NEWNET
          (SetByName name (vnetns.Get w).2).2).1 h3
        rw [hfd] at hs
        simp only [Option.some.injEq, Inode.netns.injEq] at hs
        exact hs.symm
      · simp [h1, h2, h3, Errorf] at h
    · simp [h1, h2, Errorf] at h
  · simp [h1, Errorf] at h

/-! ## NewByName followed by GetByName -/

theorem threadNetNs_ne_SelfNetNs (w : World) : threadNetNs w ≠ SelfNetNs := by
  intro h
  have h2 := congrArg String.length h
  simp only [threadNetNs, SelfNetNs, String.length_append] at h2
  have h3 : "/proc/".length = 6 := by decide
  have h4 : "/task/".length = 6 := by decide
  have h5 : "/ns/net".length = 7 := by decide
  have h6 : "/proc/self/ns/net".length = 17 := by decide
  omega

/-- The path `/proc/self/ns/net` resolves to the namespace of the thread-group
leader. -/
theorem resolve_SelfNetNs (w : World) :
    resolve w SelfNetNs = some (.netns (selfNs w)) := by
  have hne : SelfNetNs ≠ threadNetNs w := fun h => threadNetNs_ne_SelfNetNs w h.symm
  simp [resolve, isProcNs, procNs, hne]

/-- A successful `NewByName` leaves the thread in a namespace that did not
exist before; the returned descriptor carries the name and its handle is open
on that namespace; the registry path resolves to what `/proc/self/ns/net`
denotes, the namespace of the thread-group leader. -/
theorem NewByName_ok (name : String) (w : World) (h : (NewByName name w).1.2 = none) :
    (NewByName name w).1.1.Name = name ∧
    (NewByName name w).2.cur = w.nextNs ∧
    fdGet (NewByName name w).2.fds (NewByName name w).1.1.Handle =
      some (.netns (NewByName name w).2.cur) ∧
    resolve (NewByName name w).2 (pathJoin NsRunDir name) =
      some (.netns (selfNs (NewByName name w).2)) ∧
    resolve w (pathJoin NsRunDir name) = none ∧
    (NewByName name w).2.pid = w.pid ∧
    (NewByName name w).2.tid = w.tid ∧
    (NewByName name w).2.leaderNs = w.leaderNs := by
  unfold NewByName at h ⊢
  by_cases h1 : (sysOpen (pathJoin NsRunDir name) (O_RDONLY ||| O_CREAT ||| O_EXCL) 0
      (sysMkdir NsRunDir 0o755 w).2).1.2 = none
  · simp only [h1, ne_eq, not_true_eq_false, if_false] at h ⊢
    generalize hcw : (sysClose (sysOpen (pathJoin NsRunDir name)
        (O_RDONLY ||| O_CREAT ||| O_EXCL) 0 (sysMkdir NsRunDir 0o755 w).2).1.1
        (sysOpen (pathJoin NsRunDir name) (O_RDONLY ||| O_CREAT ||| O_EXCL) 0
          (sysMkdir NsRunDir 0o755 w).2).2).2 = cw at h ⊢
    have hcn : cw.nextNs = w.nextNs := by
      rw [← hcw, (sysClose_frame _ _).2.1, sysOpen_nextNs, (sysMkdir_frame _ _ _).2.1]
    have hcp : cw.pid = w.pid := by
      rw [← hcw, (sysClose_frame _ _).2.2.2.1, sysOpen_pid, (sysMkdir_frame _ _ _).2.2.2.1]
    have hct : cw.tid = w.tid := by
      rw [← hcw, (sysClose_frame _ _).2.2.2.2.1, sysOpen_tid,
        (sysMkdir_frame _ _ _).2.2.2.2.1]
    have hcl : cw.leaderNs = w.leaderNs := by
      rw [← hcw, sysClose_leaderNs, sysOpen_leaderNs, sysMkdir_leaderNs]
    by_cases h2 : (New cw).1.2 = none
    · simp only [h2, not_true_eq_false, if_false] at h ⊢
      by_cases h3 : (sysMount SelfNetNs (pathJoin NsRunDir name) "none" MS_BIND ""
          (New cw).2).1 = none
      · simp only [h3, not_true_eq_false, if_false]
        have hns := New_spec cw
        have hn := hns.2.2.2.2 h2
        have hmf := sysMount_frame SelfNetNs (pathJoin NsRunDir name) "none" MS_BIND ""
          (New cw).2
        have hml := sysMount_leaderNs SelfNetNs (pathJoin NsRunDir name) "none" MS_BIND ""
          (New cw).2
        obtain ⟨hp, i, nd, hi, _, hfiles⟩ :=
          (sysMount_result SelfNetNs (pathJoin NsRunDir name) "none" "" (New cw).2).1 h3
        rw [resolve_SelfNetNs] at hi
        have hself : selfNs (sysMount SelfNetNs (pathJoin NsRunDir name) "none" MS_BIND ""
            (New cw).2).2 = selfNs (New cw).2 := by
          simp [selfNs, hmf.2.1, hmf.2.2.2.1, hmf.2.2.2.2.1, hml]
        refine ⟨trivial, ?_, ?_, ?_, ?_, ?_, ?_, ?_⟩
        · rw [hmf.2.1, hn.1, hcn]
        · rw [hmf.1, hmf.2.1, hn.1]; exact hn.2
        · have hp2 : isProcNs (sysMount SelfNetNs (pathJoin NsRunDir name) "none" MS_BIND ""
              (New cw).2).2 (pathJoin NsRunDir name) = false := by
            rw [isProcNs_congr _ _ _ hmf.2.2.2.1 hmf.2.2.2.2.1]; exact hp
          unfold resolve
          rw [hp2, hfiles]
          simp only [setFile, if_true, Bool.false_eq_true, if_false]
          rw [hself]
          exact hi.symm
        · apply sysMkdir_resolve_none NsRunDir 0o755
          exact (sysOpen_excl_ok _ _ _ h1).1
        · rw [hmf.2.2.2.1, hns.2.1, hcp]
        · rw [hmf.2.2.2.2.1, hns.2.2.1, hct]
        · rw [hml, New_leaderNs, hcl]
      · simp [h3, Errorf] at h
    · simp [h2, Errorf] at h
  · simp [h1, Errorf] at h

/-- The unique identifier of a handle that is open on a network namespace. -/
theorem UniqueId_of_netns (w : World) (h : NsHandle) (n : Nat)
    (hfd : fdGet w.fds h = some (.netns n)) :
    vnetns.UniqueId w h = "NS(" ++ toString nsfsDev ++ ":" ++ toString n ++ ")" := by
  have hne := ne_neg_one_of_fdGet _ _ _ hfd
  simp [vnetns.UniqueId, sysFstat, hfd, hne]

/-- Two handles open on the same network namespace are `Equal`. -/
theorem Equal_of_netns (w : World) (h k : NsHandle) (n : Nat)
    (hh : fdGet w.fds h = some (.netns n)) (hk : fdGet w.fds k = some (.netns n)) :
    vnetns.Equal w h k = true := by
  simp [vnetns.Equal, sysFstat, hh, hk]

/-- After a successful `NewByName`, a `GetByName` of the same name that runs
next with no failure injected into its `open` succeeds.  The handle
`NewByName` returned is open on the namespace of the calling thread; the
handle of the lookup is open on what the bind mount recorded, the namespace of
the thread-group leader. -/
theorem NewByName_then_GetByName_handles (name : String) (w : World)
    (hnew : (NewByName name w).1.2 = none)
    (hnf : nextFault (NewByName name w).2 = none) :
    (GetByName name (NewByName name w).2).1.2 = none ∧
    (GetByName name (NewByName name w).2).1.1.Name = name ∧
    fdGet (GetByName name (NewByName name w).2).2.fds (NewByName name w).1.1.Handle =
      some (.netns (NewByName name w).2.cur) ∧
    fdGet (GetByName name (NewByName name w).2).2.fds
        (GetByName name (NewByName name w).2).1.1.Handle =
      some (.netns (selfNs (NewByName name w).2)) ∧
    (GetByName name (NewByName name w).2).2.cur = (NewByName name w).2.cur := by
  obtain ⟨_, _, hfd, hres, _⟩ := NewByName_ok name w hnew
  have hg := GetByName_eq name (NewByName name w).2
  have hopen := sysOpen_rdonly_of_resolve (pathJoin NsRunDir name) 0 _ _ hnf hres
  have herr : (GetByName name (NewByName name w).2).1.2 = none := by
    rw [hg.2.1]; exact hopen
  refine ⟨herr, hg.2.2.1, ?_, ?_, ?_⟩
  · rw [hg.1]; exact sysOpen_fd_of_some _ _ _ _ _ _ hfd
  · rw [hg.2.2.2.1 herr, hg.1, (sysOpen_rdonly_ok _ _ _ hopen).2, hres]
  · rw [hg.1, sysOpen_cur]

/-- On the thread-group leader (`tid = pid`) a successful `NewByName` followed
by `GetByName` of the same name, with no failure injected into the `open` of
the lookup, yields a descriptor that carries the name and whose handle is
`Equal` to, and has the same `UniqueId` as, the handle `NewByName` returned. -/
theorem NewByName_then_GetByName_on_leader (name : String) (w : World)
    (hl : w.tid = w.pid)
    (hnew : (NewByName name w).1.2 = none)
    (hnf : nextFault (NewByName name w).2 = none) :
    (GetByName name (NewByName name w).2).1.2 = none ∧
    (GetByName name (NewByName name w).2).1.1.Name = name ∧
    NsDesc.UniqueId (GetByName name (NewByName name w).2).2
        (GetByName name (NewByName name w).2).1.1 =
      NsDesc.UniqueId (GetByName name (NewByName name w).2).2 (NewByName name w).1.1 ∧
    NsDesc.Equal (GetByName name (NewByName name w).2).2 (NewByName name w).1.1
      (GetByName name (NewByName name w).2).1.1 = true := by
  obtain ⟨_, _, _, _, _, hp, ht, _⟩ := NewByName_ok name w hnew
  obtain ⟨herr, hname, hfdd, hfdg, _⟩ := NewByName_then_GetByName_handles name w hnew hnf
  have hself : selfNs (NewByName name w).2 = (NewByName name w).2.cur := by
    simp [selfNs, hp, ht, hl]
  rw [hself] at hfdg
  refine ⟨herr, hname, ?_, ?_⟩
  · unfold NsDesc.UniqueId
    rw [UniqueId_of_netns _ _ _ hfdg, UniqueId_of_netns _ _ _ hfdd]
  · exact Equal_of_netns _ _ _ _ hfdd hfdg

/-! ## Instances on the sample worlds -/

/-- The three cases of `SetByName` all occur: a found entry is entered, a
missing entry is created, and a lookup that fails with `EACCES` is passed on
after the single `open`. -/
theorem SetByName_cases_occur :
    ((GetByName "ns-a" worldBound).1.2 = none ∧
      (SetByName "ns-a" worldBound).1 = (⟨3, "ns-a"⟩, none) ∧
      (SetByName "ns-a" worldBound).2.cur = 2) ∧
    (IsNotExist (GetByName "ns-a" worldEmpty).1.2 = true ∧
      (SetByName "ns-a" worldEmpty).1 = (⟨3, "ns-a"⟩, none) ∧
      (SetByName "ns-a" worldEmpty).2.cur = 2 ∧
      (SetByName "ns-a" worldEmpty).2.files "/var/run/netns/ns-a" =
        some ⟨100, false, [.netns 2]⟩) ∧
    ((SetByName "ns-a" worldDenied).1 = (⟨-1, "ns-a"⟩, some (.errno .EACCES)) ∧
      (SetByName "ns-a" worldDenied).2.trace =
        [Call.openat "/var/run/netns/ns-a" O_RDONLY] ∧
      (SetByName "ns-a" worldDenied).2.cur = 1) := by
  decide

/-- Instance of C2 for a name that is newly created and for a name that is
already in the registry. -/
theorem AddByName_keeps_current_namespace_witness :
    ((AddByName "ns-a" worldEmpty).1.2 = none ∧
      resolve worldEmpty (pathJoin NsRunDir "ns-a") = none ∧
      (AddByName "ns-a" worldEmpty).2.cur = worldEmpty.cur) ∧
    ((AddByName "ns-a" worldBound).1.2 = none ∧
      resolve worldBound (pathJoin NsRunDir "ns-a") = some (.netns 2) ∧
      (AddByName "ns-a" worldBound).2.cur = worldBound.cur) :=
  ⟨⟨by decide, by decide,
      AddByName_keeps_current_namespace "ns-a" worldEmpty (by decide)⟩,
   ⟨by decide, by decide,
      AddByName_keeps_current_namespace "ns-a" worldBound (by decide)⟩⟩

/-- Instance on the thread-group leader: on the empty registry the handle of
the lookup has the `UniqueId` of the handle `NewByName` returned. -/
theorem NewByName_then_GetByName_on_leader_instance :
    worldEmpty.tid = worldEmpty.pid ∧
    (NewByName "ns-a" worldEmpty).1.2 = none ∧
    (GetByName "ns-a" (NewByName "ns-a" worldEmpty).2).1.2 = none ∧
    NsDesc.UniqueId (GetByName "ns-a" (NewByName "ns-a" worldEmpty).2).2
        (GetByName "ns-a" (NewByName "ns-a" worldEmpty).2).1.1 =
      NsDesc.UniqueId (GetByName "ns-a" (NewByName "ns-a" worldEmpty).2).2
        (NewByName "ns-a" worldEmpty).1.1 :=
  ⟨by decide, by decide,
   (NewByName_then_GetByName_on_leader "ns-a" worldEmpty (by decide) (by decide)
      (by decide)).1,
   (NewByName_then_GetByName_on_leader "ns-a" worldEmpty (by decide) (by decide)
      (by decide)).2.2.1⟩

/-- C3: the property fails in the code off the thread-group leader.  On the
empty registry, called from a thread with `tid ≠ pid`, `NewByName` of `ns-a`
succeeds, the thread is in the new namespace 2 and the returned handle is open
on it, but the bind mount of `/proc/self/ns/net` recorded the namespace of the
leader, namespace 1.  The `GetByName` that follows succeeds and carries the
name, yet its handle is open on namespace 1: the two handles have different
`UniqueId` and are not `Equal`. -/
theorem NewByName_off_leader_binds_leader_namespace :
    worldNonLeader.tid ≠ worldNonLeader.pid ∧
    (NewByName "ns-a" worldNonLeader).1 = (⟨3, "ns-a"⟩, none) ∧
    (NewByName "ns-a" worldNonLeader).2.cur = 2 ∧
    (NewByName "ns-a" worldNonLeader).2.files "/var/run/netns/ns-a" =
      some ⟨100, false, [.netns 1]⟩ ∧
    (GetByName "ns-a" (NewByName "ns-a" worldNonLeader).2).1 = (⟨4, "ns-a"⟩, none) ∧
    NsDesc.UniqueId (GetByName "ns-a" (NewByName "ns-a" worldNonLeader).2).2
      (NewByName "ns-a" worldNonLeader).1.1 = "NS(4:2)" ∧
    NsDesc.UniqueId (GetByName "ns-a" (NewByName "ns-a" worldNonLeader).2).2
      (GetByName "ns-a" (NewByName "ns-a" worldNonLeader).2).1.1 = "NS(4:1)" ∧
    NsDesc.Equal (GetByName "ns-a" (NewByName "ns-a" worldNonLeader).2).2
      (NewByName "ns-a" worldNonLeader).1.1
      (GetByName "ns-a" (NewByName "ns-a" worldNonLeader).2).1.1 = false := by
  decide

/-- Instance of C4 on a registry that holds the entry. -/
theorem DeleteByName_then_GetByName_notExist_witness :
    (DeleteByName "ns-a" worldBound).1 = none ∧
    (DeleteByName "ns-a" worldBound).2.files (pathJoin NsRunDir "ns-a") = none ∧
    IsNotExist (GetByName "ns-a" (DeleteByName "ns-a" worldBound).2).1.2 = true :=
  ⟨by decide,
   (DeleteByName_then_GetByName_notExist "ns-a" worldBound (by decide)).2.1,
   ((DeleteByName_then_GetByName_notExist "ns-a" worldBound (by decide)).2.2.2.2
      (by decide)).2⟩

/-- C5 (as stated) fails: with no entry `ns-a`, `DeleteByName` returns the
wrapped string error, which `IsNotExist` does not classify as not-exist. -/
theorem DeleteByName_missing_not_classified :
    resolve worldEmpty (pathJoin NsRunDir "ns-a") = none ∧
    (DeleteByName "ns-a" worldEmpty).1 =
      some (.text "CloseByName(ns-a): Unmount(): no such file or directory") ∧
    IsNotExist (DeleteByName "ns-a" worldEmpty).1 = false := by
  decide

/-- Instance of C5 (as amended) on the empty registry, where the unmount fails
with `ENOENT`, and for a caller whose unmount is refused with `EPERM`. -/
theorem DeleteByName_missing_wrapped_witness :
    (resolve worldEmpty (pathJoin NsRunDir "ns-a") = none ∧
      IsNotExist (DeleteByName "ns-a" worldEmpty).1 = false ∧
      (DeleteByName "ns-a" worldEmpty).1 =
        some (.text ("CloseByName(" ++ "ns-a" ++ "): " ++ "Unmount(): " ++
          "no such file or directory"))) ∧
    (resolve worldNotPermitted (pathJoin NsRunDir "ns-a") = none ∧
      (DeleteByName "ns-a" worldNotPermitted).1 =
        some (.text "CloseByName(ns-a): Unmount(): operation not permitted") ∧
      IsNotExist (DeleteByName "ns-a" worldNotPermitted).1 = false) :=
  ⟨⟨by decide,
    (DeleteByName_missing_wrapped "ns-a" worldEmpty (by decide)).2.2.2.1,
    (DeleteByName_missing_wrapped "ns-a" worldEmpty (by decide)).2.2.1 (by decide)⟩,
   ⟨by decide, by decide,
    (DeleteByName_missing_wrapped "ns-a" worldNotPermitted (by decide)).2.2.2.1⟩⟩

/-- C6 (as stated) fails: on a plain, unmounted registry file the unmount
fails with `EINVAL`, `DeleteByName` returns that failure, the only system call
in the trace is the `umount2`, no `unlink` is attempted, and the file is still
there although an `unlink` would have removed it. -/
theorem DeleteByName_skips_unlink :
    (sysUnmount (pathJoin NsRunDir "ns-a") MNT_DETACH worldPlainEntry).1 =
      some (.errno .EINVAL) ∧
    (DeleteByName "ns-a" worldPlainEntry).1 =
      some (.text "CloseByName(ns-a): Unmount(): invalid argument") ∧
    (DeleteByName "ns-a" worldPlainEntry).2.trace =
      [Call.umount "/var/run/netns/ns-a" MNT_DETACH] ∧
    Call.unlink "/var/run/netns/ns-a" ∉ (DeleteByName "ns-a" worldPlainEntry).2.trace ∧
    (DeleteByName "ns-a" worldPlainEntry).2.files "/var/run/netns/ns-a" =
      some ⟨100, false, []⟩ ∧
    (sysUnlink "/var/run/netns/ns-a" worldPlainEntry).1 = none := by
  decide

/-- Instance of C6 (as amended) on the plain registry file. -/
theorem DeleteByName_unmount_failure_stops_witness :
    (sysUnmount (pathJoin NsRunDir "ns-a") MNT_DETACH worldPlainEntry).1 ≠ none ∧
    (DeleteByName "ns-a" worldPlainEntry).2.trace =
      worldPlainEntry.trace ++ [Call.umount (pathJoin NsRunDir "ns-a") MNT_DETACH] ∧
    (DeleteByName "ns-a" worldPlainEntry).2.files = worldPlainEntry.files :=
  ⟨by decide,
   (DeleteByName_unmount_failure_stops "ns-a" worldPlainEntry (by decide)).2.1,
   (DeleteByName_unmount_failure_stops "ns-a" worldPlainEntry (by decide)).2.2.2⟩

/-- Instance of C7 on a registry that holds the entry. -/
theorem NewByName_existing_fails_without_effect_witness :
    resolve worldBound (pathJoin NsRunDir "ns-a") ≠ none ∧
    (NewByName "ns-a" worldBound).1.2 =
      some (.text ("NewByName(" ++ "ns-a" ++ "): " ++ "file exists")) ∧
    (NewByName "ns-a" worldBound).2.cur = worldBound.cur ∧
    (NewByName "ns-a" worldBound).2.nextNs = worldBound.nextNs :=
  ⟨by decide,
   (NewByName_existing_fails_without_effect "ns-a" worldBound (by decide)).2.1 (by decide),
   (NewByName_existing_fails_without_effect "ns-a" worldBound (by decide)).2.2.2.2.1,
   (NewByName_existing_fails_without_effect "ns-a" worldBound (by decide)).2.2.2.1⟩

/-- C10 (as stated) fails for a copy whose original was closed: the close in
`Delete` fails with `EBADF`, the handle keeps its number, `DeleteByName`
succeeds and removes the entry, and the descriptor still reports open. -/
theorem Delete_stale_copy_still_open :
    staleCopy = ⟨3, "ns-a"⟩ ∧
    fdGet staleCopyWorld.fds staleCopy.Handle = none ∧
    (staleCopy.Close staleCopyWorld).1.1 = some (.errno .EBADF) ∧
    (staleCopy.Delete staleCopyWorld).1.1 = none ∧
    (staleCopy.Delete staleCopyWorld).2.files "/var/run/netns/ns-a" = none ∧
    (staleCopy.Delete staleCopyWorld).1.2.IsOpen = true := by
  decide

end netns
